import Mathlib

/-!
# Cursor lock controller: bounds state machine

A shallow embedding of `src/main.cpp` (the `CursorLockManager` singleton, its
helpers in the anonymous namespace and the setting-change listener registered
in the `$execute` block).

Modelling decisions.

* The settings are C++ `double`s.  The controller only compares them and picks
  one of two values (clamp), which is exact on finite doubles, so a field is a
  rational number here.  NaN and the infinities are outside the model.
* `CursorLock.hpp` is not part of the sources at hand.  Its two pure helpers
  `clampBounds` and `percentToPixels` are modelled from the specification.  The
  result of `createCursorLockAPI()` (a possibly null pointer) is a boolean taken
  as an input of `init`.
* Everything outside the controller is gathered in `World`: the settings
  storage (four keys), the screen size, and a log of the calls that leave the
  controller (alert dialog, clamp capability, storage writes, listener runs).
* `Mod::setSettingValue` runs the registered change listener synchronously, and
  the listener may call `setBounds` again.  The recursion is cut by a fuel
  argument counting nested `setBounds` calls; a call that runs out of fuel
  yields `none`.
-/

namespace cursorlock

/-- Percentages of the screen, `PercentBounds` of `CursorLock.hpp`. -/
structure PercentBounds where
  left : ℚ
  top : ℚ
  right : ℚ
  bottom : ℚ
  deriving DecidableEq, Repr

/-- Pixel rectangle handed to the clamp capability. -/
structure PixelBounds where
  left : ℚ
  top : ℚ
  right : ℚ
  bottom : ℚ
  deriving DecidableEq, Repr

/-- Current screen dimensions, read by `percentToPixels`. -/
structure Screen where
  width : ℚ
  height : ℚ
  deriving DecidableEq, Repr

/-- The four setting keys `"left"`, `"top"`, `"right"`, `"bottom"`. -/
inductive Key where
  | left
  | top
  | right
  | bottom
  deriving DecidableEq, Repr

/-- Calls that leave the controller, in program order. -/
inductive Event where
  /-- Records `FLAlertLayer::create(...)->show()`. -/
  | alert
  /-- Records `m_api->applyBounds(px)`. -/
  | applyBounds (px : PixelBounds)
  /-- Records `m_api->release()`. -/
  | release
  /-- Records `m_api->tick()`. -/
  | tick
  /-- Records `mod->setSettingValue<double>(key, value)` made by the controller. -/
  | setSettingValue (key : Key) (value : ℚ)
  /-- Records one run of the change listener and what `isIgnoringChanges()`
  returned to it. -/
  | listenerRun (ignoring : Bool)
  deriving DecidableEq, Repr

/-- Data members of `CursorLockManager` (lines 145-150); `m_api` records
whether the `unique_ptr` is non-null. -/
structure CursorLockManager where
  m_api : Bool
  m_bounds : PercentBounds
  m_lastValid : PercentBounds
  m_enabled : Bool
  m_alertShown : Bool
  m_ignoreSettingChanges : Bool
  deriving DecidableEq, Repr

/-- The singleton controller together with its surroundings. -/
structure World where
  mgr : CursorLockManager
  settings : PercentBounds
  screen : Screen
  log : List Event
  deriving DecidableEq, Repr

/-- Modelled from the spec: `clampBounds` of `CursorLock.hpp`, which "clamps
each of the four fields independently into [0, 100]". -/
def clampBounds (b : PercentBounds) : PercentBounds :=
  { left := max 0 (min b.left 100)
    top := max 0 (min b.top 100)
    right := max 0 (min b.right 100)
    bottom := max 0 (min b.bottom 100) }

/-- Modelled from the spec: `percentToPixels` of `CursorLock.hpp`, a "linear
scale of each percentage field by the corresponding screen axis length",
recomputed from the screen size at every call. -/
def percentToPixels (b : PercentBounds) (s : Screen) : PixelBounds :=
  { left := b.left / 100 * s.width
    top := b.top / 100 * s.height
    right := b.right / 100 * s.width
    bottom := b.bottom / 100 * s.height }

/-- Lines 15-23: reads the four keys from the settings storage. -/
def loadBoundsFromSettings (w : World) : PercentBounds :=
  { left := w.settings.left
    top := w.settings.top
    right := w.settings.right
    bottom := w.settings.bottom }

/-- Lines 25-27. -/
def defaultBounds : PercentBounds :=
  { left := 25, top := 25, right := 75, bottom := 75 }

/-- Lines 29-31. -/
def isValidBounds (b : PercentBounds) : Bool :=
  decide (b.right > b.left) && decide (b.bottom > b.top)

/-- Storage side of `setSettingValue`: the value kept under `key` is replaced. -/
def storeSetting (key : Key) (value : ℚ) (s : PercentBounds) : PercentBounds :=
  match key with
  | Key.left => { s with left := value }
  | Key.top => { s with top := value }
  | Key.right => { s with right := value }
  | Key.bottom => { s with bottom := value }

/-- Appends one outgoing call to the log. -/
def emit (e : Event) (w : World) : World :=
  { w with log := w.log ++ [e] }

namespace CursorLockManager

/-- Lines 47-58, with `CCNode::init()` succeeding.  `api` is whether
`createCursorLockAPI()` returned a capability; the remaining members take their
default member initialisers. -/
def init (api : Bool) (settings : PercentBounds) (screen : Screen) : World :=
  let w0 : World :=
    { mgr :=
        { m_api := api
          m_bounds := ⟨0, 0, 0, 0⟩
          m_lastValid := ⟨0, 0, 0, 0⟩
          m_enabled := false
          m_alertShown := false
          m_ignoreSettingChanges := false }
      settings := settings
      screen := screen
      log := [] }
  let w1 : World :=
    { w0 with mgr := { w0.mgr with m_bounds := clampBounds (loadBoundsFromSettings w0) } }
  let w2 : World :=
    if !isValidBounds w1.mgr.m_bounds then
      { w1 with mgr := { w1.mgr with m_bounds := clampBounds defaultBounds } }
    else w1
  { w2 with mgr := { w2.mgr with m_lastValid := w2.mgr.m_bounds } }

/-- Lines 122-127. -/
def applyToAPI (w : World) : World :=
  if !w.mgr.m_api then w
  else emit (Event.applyBounds (percentToPixels w.mgr.m_bounds w.screen)) w

/-- Lines 129-135. -/
def notifyInvalid (_b : PercentBounds) (w : World) : World :=
  if w.mgr.m_alertShown then w
  else
    let w1 := emit Event.alert w
    { w1 with mgr := { w1.mgr with m_alertShown := true } }

/-- The call `mod->setSettingValue<double>(key, value)` of the settings
storage, as the specification describes that interface: the value is stored and
the change listener `onChange` subscribed to the key runs synchronously, before
the call returns, also for a programmatic write. -/
def setSettingValue (onChange : World → Option World) (key : Key) (value : ℚ)
    (w : World) : Option World :=
  let w1 := emit (Event.setSettingValue key value) w
  onChange { w1 with settings := storeSetting key value w1.settings }

/-- Lines 112-120. -/
def writeSettings (onChange : World → Option World) (b : PercentBounds)
    (w : World) : Option World := do
  let w0 : World := { w with mgr := { w.mgr with m_ignoreSettingChanges := true } }
  let w1 ← setSettingValue onChange Key.left b.left w0
  let w2 ← setSettingValue onChange Key.top b.top w1
  let w3 ← setSettingValue onChange Key.right b.right w2
  let w4 ← setSettingValue onChange Key.bottom b.bottom w3
  pure { w4 with mgr := { w4.mgr with m_ignoreSettingChanges := false } }

/-- Lines 137-143. -/
def restoreLastValid (onChange : World → Option World) (w : World) : Option World :=
  let w1 : World :=
    if !isValidBounds w.mgr.m_lastValid then
      { w with mgr := { w.mgr with m_lastValid := clampBounds defaultBounds } }
    else w
  let w2 : World := { w1 with mgr := { w1.mgr with m_bounds := w1.mgr.m_lastValid } }
  writeSettings onChange w2.mgr.m_lastValid w2

/-- Lines 107-109. -/
def isIgnoringChanges (w : World) : Bool :=
  w.mgr.m_ignoreSettingChanges

/-- Lines 198-202, the listener subscribed to each of the four keys, with the
manager's `setBounds` passed in.  `CursorLockManager::get()` returns the
existing singleton; `manager->isIgnoringChanges()` is called once and its
result is what the log records. -/
def settingListener (setBounds : PercentBounds → World → Option World)
    (w : World) : Option World :=
  let ignoring := isIgnoringChanges w
  let w1 := emit (Event.listenerRun ignoring) w
  if ignoring then some w1
  else setBounds (loadBoundsFromSettings w1) w1

/-- Lines 71-84.  The fuel bounds the nesting of `setBounds` calls through the
change listener. -/
def setBounds : Nat → PercentBounds → World → Option World
  | 0, _, _ => none
  | fuel + 1, bounds, w =>
    let clamped := clampBounds bounds
    if !isValidBounds clamped then
      restoreLastValid (settingListener (setBounds fuel)) (notifyInvalid clamped w)
    else
      let w1 : World :=
        { w with mgr := { w.mgr with m_bounds := clamped, m_lastValid := clamped,
                                     m_alertShown := false } }
      if w1.mgr.m_enabled then some (applyToAPI w1) else some w1

/-- Lines 60-65. -/
def update (w : World) : World :=
  if w.mgr.m_enabled && w.mgr.m_api then
    emit Event.tick (applyToAPI w)
  else w

/-- Lines 67-69. -/
def refreshFromSettings (fuel : Nat) (w : World) : Option World :=
  setBounds fuel (loadBoundsFromSettings w) w

/-- Lines 86-88. -/
def getBounds (w : World) : PercentBounds :=
  w.mgr.m_bounds

/-- Lines 90-94. -/
def activate (fuel : Nat) (w : World) : Option World := do
  let w1 ← refreshFromSettings fuel w
  let w2 : World := { w1 with mgr := { w1.mgr with m_enabled := true } }
  pure (applyToAPI w2)

/-- Lines 96-101. -/
def deactivate (w : World) : World :=
  let w1 : World := { w with mgr := { w.mgr with m_enabled := false } }
  if w1.mgr.m_api then emit Event.release w1 else w1

/-- Lines 103-105. -/
def isActive (w : World) : Bool :=
  w.mgr.m_enabled

/-- A user edit of one setting in the settings storage: the new value is
stored and the listener subscribed to the key (lines 195-209) runs. -/
def settingChanged (fuel : Nat) (key : Key) (value : ℚ) (w : World) : Option World :=
  settingListener (setBounds fuel)
    { w with settings := storeSetting key value w.settings }

end CursorLockManager

/-- Operations that reach the controller after `init`: the public methods,
the scheduler tick and a setting-change notification caused by a user edit. -/
inductive Op where
  | setBounds (b : PercentBounds)
  | activate
  | deactivate
  | update
  | settingChanged (key : Key) (value : ℚ)
  deriving DecidableEq, Repr

/-- One operation on the controller. -/
def step (fuel : Nat) : Op → World → Option World
  | Op.setBounds b, w => CursorLockManager.setBounds fuel b w
  | Op.activate, w => CursorLockManager.activate fuel w
  | Op.deactivate, w => some (CursorLockManager.deactivate w)
  | Op.update, w => some (CursorLockManager.update w)
  | Op.settingChanged key value, w => CursorLockManager.settingChanged fuel key value w

/-- A sequence of operations, left to right. -/
def run (fuel : Nat) : List Op → World → Option World
  | [], w => some w
  | op :: ops, w => (step fuel op w).bind (run fuel ops)

/-- States reachable from `init()` by the operations of `Op`. -/
inductive Reachable : World → Prop where
  | init (api : Bool) (settings : PercentBounds) (screen : Screen) :
      Reachable (CursorLockManager.init api settings screen)
  | step (fuel : Nat) (op : Op) (w w' : World) :
      Reachable w → step fuel op w = some w' → Reachable w'

/-- Capability calls (`applyBounds`, `release`, `tick`) of a log. -/
def apiCalls (log : List Event) : List Event :=
  log.filter fun e =>
    match e with
    | Event.applyBounds _ => true
    | Event.release => true
    | Event.tick => true
    | _ => false

/-- Number of alert dialogs shown in a log. -/
def alertCount (log : List Event) : Nat :=
  log.count Event.alert

/-- Storage writes made by the controller in a log. -/
def settingWrites (log : List Event) : List Event :=
  log.filter fun e =>
    match e with
    | Event.setSettingValue _ _ => true
    | _ => false

/-- Log produced by `writeSettings b` when every listener run is ignored. -/
def writeTrace (b : PercentBounds) : List Event :=
  [Event.setSettingValue Key.left b.left, Event.listenerRun true,
   Event.setSettingValue Key.top b.top, Event.listenerRun true,
   Event.setSettingValue Key.right b.right, Event.listenerRun true,
   Event.setSettingValue Key.bottom b.bottom, Event.listenerRun true]

/-- Bounds `restoreLastValid` reverts to. -/
def fallback (w : World) : PercentBounds :=
  if isValidBounds w.mgr.m_lastValid then w.mgr.m_lastValid else clampBounds defaultBounds

/-- Log entries of `notifyInvalid`. -/
def alertTrace (w : World) : List Event :=
  if w.mgr.m_alertShown then [] else [Event.alert]

/-- Log entries of the `applyToAPI` call guarded by `m_enabled`. -/
def applyTrace (w : World) (b : PercentBounds) : List Event :=
  if w.mgr.m_enabled && w.mgr.m_api then [Event.applyBounds (percentToPixels b w.screen)]
  else []

/-- The request an operation hands to `setBounds`, if it calls it: `activate`
and the change listener pass the bounds loaded from the settings storage. -/
def requestOf : Op → World → Option PercentBounds
  | Op.setBounds b, _ => some b
  | Op.activate, w => some (loadBoundsFromSettings w)
  | Op.settingChanged key value, w => some (storeSetting key value w.settings)
  | Op.deactivate, _ => none
  | Op.update, _ => none

/-- Enabled flag expected after a sequence of operations started with the flag
`a`: the most recent `activate`/`deactivate` decides. -/
def lastLifecycle (a : Bool) : List Op → Bool
  | [] => a
  | Op.activate :: ops => lastLifecycle true ops
  | Op.deactivate :: ops => lastLifecycle false ops
  | _ :: ops => lastLifecycle a ops

/-- Operations the claims consider while the controller is inactive. -/
def idleOp : Op → Bool
  | Op.setBounds _ => true
  | Op.update => true
  | _ => false

/-- Screen used in the worked scenarios. -/
def demoScreen : Screen := ⟨1920, 1080⟩

/-- Scenario state: a controller with a capability, freshly initialised from
the stored bounds (25, 25, 75, 75). -/
def demoWorld : World := CursorLockManager.init true ⟨25, 25, 75, 75⟩ demoScreen

/-- Scenario state: a controller with a capability, freshly initialised from
stored bounds with `right < left`. -/
def demoBadStore : World := CursorLockManager.init true ⟨80, 10, 20, 90⟩ demoScreen

/-- Scenario request with `right < left`. -/
def demoInvalid : PercentBounds := ⟨80, 10, 20, 90⟩

/-- Scenario request that is valid. -/
def demoValid : PercentBounds := ⟨10, 10, 90, 90⟩

/-- A log with its capability calls removed. -/
def withoutApiCalls (log : List Event) : List Event :=
  log.filter fun e =>
    match e with
    | Event.applyBounds _ => false
    | Event.release => false
    | Event.tick => false
    | _ => true

/-- The same world on a platform without clamp capability: `m_api` is null and
no capability call was logged. -/
def stripApi (w : World) : World :=
  { w with mgr := { w.mgr with m_api := false }, log := withoutApiCalls w.log }

/-- Invariant of the reachable states. -/
def Inv (w : World) : Prop :=
  isValidBounds w.mgr.m_bounds = true ∧
  w.mgr.m_lastValid = w.mgr.m_bounds ∧
  clampBounds w.mgr.m_bounds = w.mgr.m_bounds ∧
  w.mgr.m_ignoreSettingChanges = false

/-! ## Bounds engine -/

theorem clampBounds_idem (b : PercentBounds) :
    clampBounds (clampBounds b) = clampBounds b := by
  simp only [clampBounds, PercentBounds.mk.injEq]
  refine ⟨?_, ?_, ?_, ?_⟩ <;>
    · rcases le_total (0 : ℚ) 100 with h | h <;> simp [min_def, max_def] <;>
        split_ifs <;> linarith

theorem clampBounds_default : clampBounds defaultBounds = defaultBounds := by
  simp only [clampBounds, defaultBounds, PercentBounds.mk.injEq]
  norm_num

theorem isValidBounds_default : isValidBounds defaultBounds = true := by
  simp only [isValidBounds, defaultBounds]
  norm_num

theorem isValidBounds_iff (b : PercentBounds) :
    isValidBounds b = true ↔ b.left < b.right ∧ b.top < b.bottom := by
  simp [isValidBounds]

/-! ## The change listener and the write-back -/

theorem settingListener_ignoring (sb : PercentBounds → World → Option World) (w : World)
    (h : w.mgr.m_ignoreSettingChanges = true) :
    CursorLockManager.settingListener sb w = some (emit (Event.listenerRun true) w) := by
  simp [CursorLockManager.settingListener, CursorLockManager.isIgnoringChanges, emit, h]

theorem writeSettings_eq (sb : PercentBounds → World → Option World) (b : PercentBounds)
    (w : World) :
    CursorLockManager.writeSettings (CursorLockManager.settingListener sb) b w =
      some { mgr := { w.mgr with m_ignoreSettingChanges := false }
             settings := b
             screen := w.screen
             log := w.log ++ writeTrace b } := by
  simp [CursorLockManager.writeSettings, CursorLockManager.setSettingValue,
    CursorLockManager.settingListener, CursorLockManager.isIgnoringChanges, emit, storeSetting,
    writeTrace, bind, pure]

/-! ## Closed forms of `setBounds` -/

theorem setBounds_invalid_eq (fuel : Nat) (b : PercentBounds) (w : World)
    (h : isValidBounds (clampBounds b) = false) :
    CursorLockManager.setBounds (fuel + 1) b w =
      some { mgr := { w.mgr with m_bounds := fallback w, m_lastValid := fallback w,
                                 m_alertShown := true, m_ignoreSettingChanges := false }
             settings := fallback w
             screen := w.screen
             log := w.log ++ alertTrace w ++ writeTrace (fallback w) } := by
  rw [CursorLockManager.setBounds]
  simp only [h, Bool.not_false, if_true, CursorLockManager.restoreLastValid, writeSettings_eq]
  by_cases ha : w.mgr.m_alertShown = true <;> by_cases hv : isValidBounds w.mgr.m_lastValid = true <;>
    simp [CursorLockManager.notifyInvalid, fallback, alertTrace, emit, ha, hv]

theorem setBounds_valid_eq (fuel : Nat) (b : PercentBounds) (w : World)
    (h : isValidBounds (clampBounds b) = true) :
    CursorLockManager.setBounds (fuel + 1) b w =
      some { mgr := { w.mgr with m_bounds := clampBounds b, m_lastValid := clampBounds b,
                                 m_alertShown := false }
             settings := w.settings
             screen := w.screen
             log := w.log ++ applyTrace w (clampBounds b) } := by
  rw [CursorLockManager.setBounds]
  by_cases he : w.mgr.m_enabled = true <;> by_cases ha : w.mgr.m_api = true <;>
    simp [h, CursorLockManager.applyToAPI, applyTrace, emit, he, ha]

/-! ## The invariant of the reachable states -/

theorem fallback_of_inv (w : World) (hw : Inv w) : fallback w = w.mgr.m_bounds := by
  obtain ⟨hv, hl, -, -⟩ := hw
  simp [fallback, hl, hv]

theorem init_inv (api : Bool) (s : PercentBounds) (screen : Screen) :
    Inv (CursorLockManager.init api s screen) := by
  by_cases hv : isValidBounds (clampBounds s) = true
  · simp [Inv, CursorLockManager.init, loadBoundsFromSettings, hv, clampBounds_idem]
  · simp [Inv, CursorLockManager.init, loadBoundsFromSettings, hv, clampBounds_idem,
      clampBounds_default, isValidBounds_default]

theorem setBounds_inv (fuel : Nat) (b : PercentBounds) (w w' : World) (hw : Inv w)
    (h : CursorLockManager.setBounds fuel b w = some w') : Inv w' := by
  cases fuel with
  | zero => simp [CursorLockManager.setBounds] at h
  | succ n =>
    by_cases hv : isValidBounds (clampBounds b) = true
    · rw [setBounds_valid_eq n b w hv] at h
      cases h
      exact ⟨hv, rfl, clampBounds_idem b, hw.2.2.2⟩
    · rw [setBounds_invalid_eq n b w (by simpa using hv)] at h
      cases h
      rw [fallback_of_inv w hw]
      exact ⟨hw.1, rfl, hw.2.2.1, rfl⟩

theorem applyToAPI_inv (w : World) (hw : Inv w) : Inv (CursorLockManager.applyToAPI w) := by
  unfold CursorLockManager.applyToAPI
  split
  · exact hw
  · exact hw

theorem activate_inv (fuel : Nat) (w w' : World) (hw : Inv w)
    (h : CursorLockManager.activate fuel w = some w') : Inv w' := by
  simp only [CursorLockManager.activate, CursorLockManager.refreshFromSettings, bind, pure,
    Option.bind_eq_some] at h
  obtain ⟨w1, h1, h2⟩ := h
  cases h2
  exact applyToAPI_inv _ (setBounds_inv fuel _ w w1 hw h1)

theorem deactivate_inv (w : World) (hw : Inv w) : Inv (CursorLockManager.deactivate w) := by
  unfold CursorLockManager.deactivate
  dsimp only
  split
  · exact hw
  · exact hw

theorem update_inv (w : World) (hw : Inv w) : Inv (CursorLockManager.update w) := by
  unfold CursorLockManager.update
  split
  · exact applyToAPI_inv w hw
  · exact hw

theorem settingChanged_eq (fuel : Nat) (key : Key) (value : ℚ) (w : World)
    (hi : w.mgr.m_ignoreSettingChanges = false) :
    CursorLockManager.settingChanged fuel key value w =
      CursorLockManager.setBounds fuel (storeSetting key value w.settings)
        { w with settings := storeSetting key value w.settings
                 log := w.log ++ [Event.listenerRun false] } := by
  simp [CursorLockManager.settingChanged, CursorLockManager.settingListener,
    CursorLockManager.isIgnoringChanges, emit, hi,
    loadBoundsFromSettings]

theorem settingChanged_inv (fuel : Nat) (key : Key) (value : ℚ) (w w' : World) (hw : Inv w)
    (h : CursorLockManager.settingChanged fuel key value w = some w') : Inv w' := by
  rw [settingChanged_eq fuel key value w hw.2.2.2] at h
  refine setBounds_inv fuel _ _ w' ?_ h
  exact ⟨hw.1, hw.2.1, hw.2.2.1, hw.2.2.2⟩

theorem step_inv (fuel : Nat) (op : Op) (w w' : World) (hw : Inv w)
    (h : step fuel op w = some w') : Inv w' := by
  cases op with
  | setBounds b => exact setBounds_inv fuel b w w' hw h
  | activate => exact activate_inv fuel w w' hw h
  | deactivate =>
    simp only [step, Option.some.injEq] at h
    exact h ▸ deactivate_inv w hw
  | update =>
    simp only [step, Option.some.injEq] at h
    exact h ▸ update_inv w hw
  | settingChanged key value => exact settingChanged_inv fuel key value w w' hw h

theorem reachable_inv (w : World) (hw : Reachable w) : Inv w := by
  induction hw with
  | init api s screen => exact init_inv api s screen
  | step fuel op w w' _ h ih => exact step_inv fuel op w w' ih h

/-! ## Totality with one unit of fuel or more -/

theorem setBounds_total (fuel : Nat) (b : PercentBounds) (w : World) :
    ∃ w', CursorLockManager.setBounds (fuel + 1) b w = some w' := by
  by_cases hv : isValidBounds (clampBounds b) = true
  · exact ⟨_, setBounds_valid_eq fuel b w hv⟩
  · exact ⟨_, setBounds_invalid_eq fuel b w (by simpa using hv)⟩

theorem activate_total (fuel : Nat) (w : World) :
    ∃ w', CursorLockManager.activate (fuel + 1) w = some w' := by
  obtain ⟨w1, h1⟩ := setBounds_total fuel (loadBoundsFromSettings w) w
  refine ⟨CursorLockManager.applyToAPI
    { w1 with mgr := { w1.mgr with m_enabled := true } }, ?_⟩
  simp [CursorLockManager.activate, CursorLockManager.refreshFromSettings, h1, bind, pure]

theorem settingChanged_total (fuel : Nat) (key : Key) (value : ℚ) (w : World) :
    ∃ w', CursorLockManager.settingChanged (fuel + 1) key value w = some w' := by
  by_cases hi : w.mgr.m_ignoreSettingChanges = true
  · exact ⟨_, settingListener_ignoring _ _ hi⟩
  · rw [settingChanged_eq _ key value w (by simpa using hi)]
    exact setBounds_total fuel _ _

theorem step_total (fuel : Nat) (op : Op) (w : World) :
    ∃ w', step (fuel + 1) op w = some w' := by
  cases op with
  | setBounds b => exact setBounds_total fuel b w
  | activate => exact activate_total fuel w
  | deactivate => exact ⟨_, rfl⟩
  | update => exact ⟨_, rfl⟩
  | settingChanged key value => exact settingChanged_total fuel key value w

theorem run_inv (fuel : Nat) (ops : List Op) (w : World) (hw : Inv w) :
    ∃ w', run (fuel + 1) ops w = some w' ∧ Inv w' := by
  induction ops generalizing w with
  | nil => exact ⟨w, rfl, hw⟩
  | cons op ops ih =>
    obtain ⟨w1, h1⟩ := step_total fuel op w
    obtain ⟨w2, h2, hi⟩ := ih w1 (step_inv _ op w w1 hw h1)
    exact ⟨w2, by simp [run, h1, h2], hi⟩

theorem run_reachable (fuel : Nat) (ops : List Op) (w w' : World) (hw : Reachable w)
    (h : run fuel ops w = some w') : Reachable w' := by
  induction ops generalizing w with
  | nil =>
    simp only [run, Option.some.injEq] at h
    exact h ▸ hw
  | cons op ops ih =>
    simp only [run, Option.bind_eq_some] at h
    obtain ⟨w1, h1, h2⟩ := h
    exact ih w1 (Reachable.step fuel op w w1 hw h1) h2

/-! ## Frame and log lemmas -/

theorem setBounds_frame (fuel : Nat) (b : PercentBounds) (w w' : World)
    (h : CursorLockManager.setBounds fuel b w = some w') :
    w'.mgr.m_enabled = w.mgr.m_enabled ∧ w'.mgr.m_api = w.mgr.m_api ∧
      w'.screen = w.screen := by
  cases fuel with
  | zero => simp [CursorLockManager.setBounds] at h
  | succ n =>
    by_cases hv : isValidBounds (clampBounds b) = true
    · rw [setBounds_valid_eq n b w hv] at h
      cases h
      exact ⟨rfl, rfl, rfl⟩
    · rw [setBounds_invalid_eq n b w (by simpa using hv)] at h
      cases h
      exact ⟨rfl, rfl, rfl⟩

theorem alertCount_append (l₁ l₂ : List Event) :
    alertCount (l₁ ++ l₂) = alertCount l₁ + alertCount l₂ := by
  simp [alertCount]

theorem alertCount_writeTrace (b : PercentBounds) : alertCount (writeTrace b) = 0 := by
  simp [alertCount, writeTrace, List.count_cons]

theorem alertCount_applyTrace (w : World) (b : PercentBounds) :
    alertCount (applyTrace w b) = 0 := by
  unfold applyTrace
  split <;> simp [alertCount, List.count_cons]

theorem apiCalls_append (l₁ l₂ : List Event) :
    apiCalls (l₁ ++ l₂) = apiCalls l₁ ++ apiCalls l₂ := by
  simp [apiCalls]

theorem apiCalls_writeTrace (b : PercentBounds) : apiCalls (writeTrace b) = [] := by
  simp [apiCalls, writeTrace]

theorem apiCalls_alertTrace (w : World) : apiCalls (alertTrace w) = [] := by
  unfold alertTrace
  split <;> simp [apiCalls]

theorem applyTrace_disabled (w : World) (b : PercentBounds) (h : w.mgr.m_enabled = false) :
    applyTrace w b = [] := by
  simp [applyTrace, h]

theorem applyToAPI_eq (w : World) :
    CursorLockManager.applyToAPI w =
      { w with log := w.log ++
          if w.mgr.m_api then [Event.applyBounds (percentToPixels w.mgr.m_bounds w.screen)]
          else [] } := by
  by_cases ha : w.mgr.m_api = true <;> simp [CursorLockManager.applyToAPI, emit, ha]

theorem activate_eq (fuel : Nat) (w w1 : World)
    (h : CursorLockManager.setBounds fuel (loadBoundsFromSettings w) w = some w1) :
    CursorLockManager.activate fuel w =
      some { mgr := { w1.mgr with m_enabled := true }
             settings := w1.settings
             screen := w1.screen
             log := w1.log ++
               if w1.mgr.m_api then
                 [Event.applyBounds (percentToPixels w1.mgr.m_bounds w1.screen)]
               else [] } := by
  simp [CursorLockManager.activate, CursorLockManager.refreshFromSettings, h, bind, pure,
    applyToAPI_eq]

/-! ## Alerts -/

theorem alertCount_alertTrace (w : World) :
    alertCount (alertTrace w) = if w.mgr.m_alertShown then 0 else 1 := by
  by_cases ha : w.mgr.m_alertShown = true <;> simp [alertTrace, alertCount, ha]

theorem setBounds_invalid_alert (fuel : Nat) (b : PercentBounds) (w : World)
    (hb : isValidBounds (clampBounds b) = false) :
    ∃ w', CursorLockManager.setBounds (fuel + 1) b w = some w' ∧
      alertCount w'.log = alertCount w.log + (if w.mgr.m_alertShown then 0 else 1) ∧
      w'.mgr.m_alertShown = true := by
  refine ⟨_, setBounds_invalid_eq fuel b w hb, ?_, rfl⟩
  simp only [alertCount_append, alertCount_writeTrace, alertCount_alertTrace, add_zero]

theorem run_invalid_alert (fuel : Nat) (bs : List PercentBounds) (w : World)
    (hinv : ∀ x ∈ bs, isValidBounds (clampBounds x) = false)
    (hs : w.mgr.m_alertShown = true) :
    ∃ wn, run (fuel + 1) (bs.map Op.setBounds) w = some wn ∧
      alertCount wn.log = alertCount w.log ∧ wn.mgr.m_alertShown = true := by
  induction bs generalizing w with
  | nil => exact ⟨w, rfl, rfl, hs⟩
  | cons b bs ih =>
    obtain ⟨w1, h1, hc1, hs1⟩ :=
      setBounds_invalid_alert fuel b w (hinv b (List.mem_cons_self b bs))
    obtain ⟨wn, hr, hc, hsn⟩ := ih w1 (fun x hx => hinv x (List.mem_cons_of_mem b hx)) hs1
    refine ⟨wn, ?_, ?_, hsn⟩
    · simp [run, step, h1, hr]
    · rw [hc, hc1]
      simp [hs]

theorem setBounds_alert_shown (fuel : Nat) (b : PercentBounds) (v v' : World)
    (hv : v.mgr.m_alertShown = true)
    (h : CursorLockManager.setBounds fuel b v = some v') :
    alertCount v'.log = alertCount v.log ∧
      (v'.mgr.m_alertShown = false → isValidBounds (clampBounds b) = true) := by
  cases fuel with
  | zero => simp [CursorLockManager.setBounds] at h
  | succ n =>
    by_cases hb : isValidBounds (clampBounds b) = true
    · rw [setBounds_valid_eq n b v hb] at h
      cases h
      exact ⟨by simp [alertCount_append, alertCount_applyTrace], fun _ => hb⟩
    · rw [setBounds_invalid_eq n b v (by simpa using hb)] at h
      cases h
      refine ⟨?_, fun hf => ?_⟩
      · simp [alertCount_append, alertCount_writeTrace, alertCount_alertTrace, hv]
      · simp at hf

theorem step_alert_shown (v v' : World) (op : Op) (n : Nat)
    (hv : v.mgr.m_alertShown = true) (h : step n op v = some v') :
    alertCount v'.log = alertCount v.log ∧
      (v'.mgr.m_alertShown = false →
        ∃ r, requestOf op v = some r ∧ isValidBounds (clampBounds r) = true) := by
  cases op with
  | setBounds b =>
    obtain ⟨hc, hf⟩ := setBounds_alert_shown n b v v' hv h
    exact ⟨hc, fun hx => ⟨b, rfl, hf hx⟩⟩
  | activate =>
    simp only [step] at h
    obtain ⟨w1, h1⟩ : ∃ w1, CursorLockManager.setBounds n (loadBoundsFromSettings v) v =
        some w1 := by
      cases hsb : CursorLockManager.setBounds n (loadBoundsFromSettings v) v with
      | none =>
        simp [CursorLockManager.activate, CursorLockManager.refreshFromSettings, hsb, bind] at h
      | some w1 => exact ⟨w1, rfl⟩
    rw [activate_eq n v w1 h1] at h
    cases h
    obtain ⟨hc, hf⟩ := setBounds_alert_shown n _ v w1 hv h1
    refine ⟨?_, fun hx => ⟨_, rfl, hf hx⟩⟩
    rw [alertCount_append, hc]
    split <;> simp [alertCount, List.count_cons]
  | deactivate =>
    simp only [step, Option.some.injEq] at h
    subst h
    refine ⟨?_, fun hx => ?_⟩
    · unfold CursorLockManager.deactivate
      dsimp only
      split <;> simp [emit, alertCount]
    · unfold CursorLockManager.deactivate at hx
      dsimp only at hx
      split at hx <;> simp [emit, hv] at hx
  | update =>
    simp only [step, Option.some.injEq] at h
    subst h
    refine ⟨?_, fun hx => ?_⟩
    · unfold CursorLockManager.update
      split
      · simp [emit, applyToAPI_eq, alertCount_append, alertCount]
        split <;> simp [List.count_cons]
      · rfl
    · unfold CursorLockManager.update at hx
      split at hx <;> simp [emit, applyToAPI_eq, hv] at hx
  | settingChanged key value =>
    simp only [step] at h
    by_cases hi : v.mgr.m_ignoreSettingChanges = true
    · rw [CursorLockManager.settingChanged,
        settingListener_ignoring (CursorLockManager.setBounds n)
          { v with settings := storeSetting key value v.settings } hi] at h
      cases h
      refine ⟨by simp [emit, alertCount], fun hx => ?_⟩
      simp [emit, hv] at hx
    · rw [settingChanged_eq n key value v (by simpa using hi)] at h
      obtain ⟨hc, hf⟩ := setBounds_alert_shown n _ _ v' (by exact hv) h
      refine ⟨?_, fun hx => ⟨_, rfl, hf hx⟩⟩
      rw [hc]
      simp [alertCount]

/-! ## Closed forms of `activate` -/

theorem loadBoundsFromSettings_eq (w : World) : loadBoundsFromSettings w = w.settings := rfl

theorem activate_valid_eq (fuel : Nat) (w : World)
    (hs : isValidBounds (clampBounds w.settings) = true) :
    CursorLockManager.activate (fuel + 1) w =
      some { mgr := { w.mgr with m_bounds := clampBounds w.settings,
                                 m_lastValid := clampBounds w.settings,
                                 m_alertShown := false, m_enabled := true }
             settings := w.settings
             screen := w.screen
             log := w.log ++ applyTrace w (clampBounds w.settings) ++
               if w.mgr.m_api then
                 [Event.applyBounds (percentToPixels (clampBounds w.settings) w.screen)]
               else [] } :=
  activate_eq _ w _ (setBounds_valid_eq fuel _ w hs)

theorem activate_invalid_eq (fuel : Nat) (w : World)
    (hs : isValidBounds (clampBounds w.settings) = false) :
    CursorLockManager.activate (fuel + 1) w =
      some { mgr := { w.mgr with m_bounds := fallback w, m_lastValid := fallback w,
                                 m_alertShown := true, m_ignoreSettingChanges := false,
                                 m_enabled := true }
             settings := fallback w
             screen := w.screen
             log := w.log ++ alertTrace w ++ writeTrace (fallback w) ++
               if w.mgr.m_api then
                 [Event.applyBounds (percentToPixels (fallback w) w.screen)]
               else [] } :=
  activate_eq _ w _ (setBounds_invalid_eq fuel _ w hs)

/-! ## Lifecycle -/

theorem init_valid_eq (api : Bool) (s : PercentBounds) (screen : Screen)
    (hs : isValidBounds (clampBounds s) = true) :
    CursorLockManager.init api s screen =
      { mgr := { m_api := api, m_bounds := clampBounds s, m_lastValid := clampBounds s,
                 m_enabled := false, m_alertShown := false, m_ignoreSettingChanges := false }
        settings := s
        screen := screen
        log := [] } := by
  simp [CursorLockManager.init, loadBoundsFromSettings, hs]

theorem setBounds_idle (fuel : Nat) (b : PercentBounds) (v : World)
    (hv : v.mgr.m_enabled = false) :
    ∃ v', CursorLockManager.setBounds (fuel + 1) b v = some v' ∧
      apiCalls v'.log = apiCalls v.log ∧ v'.mgr.m_enabled = false := by
  by_cases hb : isValidBounds (clampBounds b) = true
  · refine ⟨_, setBounds_valid_eq fuel b v hb, ?_, hv⟩
    simp [applyTrace_disabled v _ hv]
  · refine ⟨_, setBounds_invalid_eq fuel b v (by simpa using hb), ?_, hv⟩
    simp [apiCalls_append, apiCalls_writeTrace, apiCalls_alertTrace]

theorem step_idle (fuel : Nat) (op : Op) (v : World) (hv : v.mgr.m_enabled = false)
    (hop : idleOp op = true) :
    ∃ v', step (fuel + 1) op v = some v' ∧
      apiCalls v'.log = apiCalls v.log ∧ v'.mgr.m_enabled = false := by
  cases op with
  | setBounds b => exact setBounds_idle fuel b v hv
  | update => exact ⟨v, by simp [step, CursorLockManager.update, hv], rfl, hv⟩
  | activate => simp [idleOp] at hop
  | deactivate => simp [idleOp] at hop
  | settingChanged key value => simp [idleOp] at hop

theorem activate_from_idle (fuel : Nat) (w : World)
    (hs : isValidBounds (clampBounds w.settings) = true) (he : w.mgr.m_enabled = false)
    (ha : w.mgr.m_api = true) :
    ∃ w', CursorLockManager.activate (fuel + 1) w = some w' ∧
      w'.log = w.log ++ [Event.applyBounds (percentToPixels w'.mgr.m_bounds w.screen)] ∧
      w'.mgr.m_bounds = clampBounds w.settings ∧ w'.settings = w.settings ∧
      w'.screen = w.screen ∧ w'.mgr.m_api = true := by
  refine ⟨_, activate_valid_eq fuel w hs, ?_, rfl, rfl, rfl, ha⟩
  simp [applyTrace, he, ha]

theorem deactivate_eq (w : World) :
    CursorLockManager.deactivate w =
      { w with mgr := { w.mgr with m_enabled := false }
               log := w.log ++ if w.mgr.m_api then [Event.release] else [] } := by
  by_cases ha : w.mgr.m_api = true <;> simp [CursorLockManager.deactivate, emit, ha]

theorem deactivate_enabled (w : World) : (CursorLockManager.deactivate w).mgr.m_enabled = false := by
  unfold CursorLockManager.deactivate
  dsimp only
  split <;> rfl

theorem update_enabled (w : World) :
    (CursorLockManager.update w).mgr.m_enabled = w.mgr.m_enabled := by
  unfold CursorLockManager.update
  split
  · simp [emit, applyToAPI_eq]
  · rfl

theorem step_isActive (fuel : Nat) (op : Op) (w : World) :
    ∃ w', step (fuel + 1) op w = some w' ∧
      w'.mgr.m_enabled = lastLifecycle w.mgr.m_enabled [op] := by
  cases op with
  | setBounds b =>
    obtain ⟨w', h⟩ := setBounds_total fuel b w
    exact ⟨w', h, (setBounds_frame _ b w w' h).1⟩
  | activate =>
    obtain ⟨w1, h1⟩ := setBounds_total fuel (loadBoundsFromSettings w) w
    exact ⟨_, activate_eq _ w w1 h1, rfl⟩
  | deactivate => exact ⟨_, rfl, deactivate_enabled w⟩
  | update => exact ⟨_, rfl, update_enabled w⟩
  | settingChanged key value =>
    by_cases hi : w.mgr.m_ignoreSettingChanges = true
    · exact ⟨_, settingListener_ignoring _ _ hi, rfl⟩
    · obtain ⟨w', h⟩ := setBounds_total fuel (storeSetting key value w.settings)
        { w with settings := storeSetting key value w.settings
                 log := w.log ++ [Event.listenerRun false] }
      refine ⟨w', ?_, (setBounds_frame _ _ _ w' h).1⟩
      simp only [step]
      rw [settingChanged_eq _ key value w (by simpa using hi)]
      exact h

theorem lastLifecycle_cons (a : Bool) (op : Op) (ops : List Op) :
    lastLifecycle a (op :: ops) = lastLifecycle (lastLifecycle a [op]) ops := by
  cases op <;> rfl

theorem run_isActive (fuel : Nat) (ops : List Op) (w : World) :
    ∃ w', run (fuel + 1) ops w = some w' ∧
      w'.mgr.m_enabled = lastLifecycle w.mgr.m_enabled ops := by
  induction ops generalizing w with
  | nil => exact ⟨w, rfl, rfl⟩
  | cons op ops ih =>
    obtain ⟨w1, h1, he1⟩ := step_isActive fuel op w
    obtain ⟨w2, h2, he2⟩ := ih w1
    refine ⟨w2, by simp [run, h1, h2], ?_⟩
    rw [he2, he1, ← lastLifecycle_cons]

/-! ## Storage writes -/

theorem settingWrites_append (l₁ l₂ : List Event) :
    settingWrites (l₁ ++ l₂) = settingWrites l₁ ++ settingWrites l₂ := by
  simp [settingWrites]

theorem settingWrites_applyTrace (w : World) (b : PercentBounds) :
    settingWrites (applyTrace w b) = [] := by
  unfold applyTrace
  split <;> simp [settingWrites]

theorem setBounds_valid_writes (fuel : Nat) (b : PercentBounds) (w w' : World)
    (hb : isValidBounds (clampBounds b) = true)
    (h : CursorLockManager.setBounds fuel b w = some w') :
    w'.settings = w.settings ∧ settingWrites w'.log = settingWrites w.log ∧
      alertCount w'.log = alertCount w.log := by
  cases fuel with
  | zero => simp [CursorLockManager.setBounds] at h
  | succ n =>
    rw [setBounds_valid_eq n b w hb] at h
    cases h
    exact ⟨rfl, by simp [settingWrites_append, settingWrites_applyTrace],
      by simp [alertCount_append, alertCount_applyTrace]⟩

theorem setBounds_writes_invalid (fuel : Nat) (b : PercentBounds) (w w' : World)
    (h : CursorLockManager.setBounds fuel b w = some w')
    (hw : settingWrites w'.log ≠ settingWrites w.log) :
    isValidBounds (clampBounds b) = false := by
  by_contra hb
  exact hw (setBounds_valid_writes fuel b w w' (by simpa using hb) h).2.1

theorem step_writes_invalid (fuel : Nat) (op : Op) (w w' : World)
    (h : step fuel op w = some w')
    (hw : settingWrites w'.log ≠ settingWrites w.log) :
    ∃ r, requestOf op w = some r ∧ isValidBounds (clampBounds r) = false := by
  cases op with
  | setBounds b => exact ⟨b, rfl, setBounds_writes_invalid fuel b w w' h hw⟩
  | activate =>
    simp only [step] at h
    obtain ⟨w1, h1⟩ : ∃ w1, CursorLockManager.setBounds fuel (loadBoundsFromSettings w) w =
        some w1 := by
      cases hsb : CursorLockManager.setBounds fuel (loadBoundsFromSettings w) w with
      | none =>
        simp [CursorLockManager.activate, CursorLockManager.refreshFromSettings, hsb, bind] at h
      | some w1 => exact ⟨w1, rfl⟩
    rw [activate_eq fuel w w1 h1] at h
    cases h
    refine ⟨_, rfl, setBounds_writes_invalid fuel _ w w1 h1 fun he => hw ?_⟩
    rw [settingWrites_append, he]
    split <;> simp [settingWrites]
  | deactivate =>
    simp only [step, Option.some.injEq] at h
    subst h
    refine absurd ?_ hw
    rw [deactivate_eq]
    dsimp only
    rw [settingWrites_append]
    split <;> simp [settingWrites]
  | update =>
    simp only [step, Option.some.injEq] at h
    subst h
    refine absurd ?_ hw
    unfold CursorLockManager.update
    split
    · simp only [emit, applyToAPI_eq, settingWrites_append]
      split <;> simp [settingWrites]
    · rfl
  | settingChanged key value =>
    simp only [step] at h
    by_cases hi : w.mgr.m_ignoreSettingChanges = true
    · rw [CursorLockManager.settingChanged,
        settingListener_ignoring (CursorLockManager.setBounds fuel)
          { w with settings := storeSetting key value w.settings } hi] at h
      cases h
      exact absurd (by simp [emit, settingWrites]) hw
    · rw [settingChanged_eq fuel key value w (by simpa using hi)] at h
      refine ⟨_, rfl, setBounds_writes_invalid fuel _ _ w' h fun he => hw ?_⟩
      rw [he]
      simp [settingWrites]

/-! ## Running without a clamp capability -/

theorem withoutApiCalls_append (l₁ l₂ : List Event) :
    withoutApiCalls (l₁ ++ l₂) = withoutApiCalls l₁ ++ withoutApiCalls l₂ := by
  simp [withoutApiCalls]

theorem withoutApiCalls_writeTrace (b : PercentBounds) :
    withoutApiCalls (writeTrace b) = writeTrace b := by
  simp [withoutApiCalls, writeTrace]

theorem withoutApiCalls_alertTrace (w : World) :
    withoutApiCalls (alertTrace w) = alertTrace w := by
  unfold alertTrace
  split <;> simp [withoutApiCalls]

theorem withoutApiCalls_applyTrace (w : World) (b : PercentBounds) :
    withoutApiCalls (applyTrace w b) = [] := by
  unfold applyTrace
  split <;> simp [withoutApiCalls]

theorem applyTrace_stripApi (w : World) (b : PercentBounds) :
    applyTrace (stripApi w) b = [] := by
  simp [applyTrace, stripApi]

theorem apiCalls_withoutApiCalls (l : List Event) : apiCalls (withoutApiCalls l) = [] := by
  induction l with
  | nil => rfl
  | cons e l ih =>
    cases e <;> simp_all [apiCalls, withoutApiCalls, List.filter_cons]

theorem alertCount_withoutApiCalls (l : List Event) :
    alertCount (withoutApiCalls l) = alertCount l := by
  induction l with
  | nil => rfl
  | cons e l ih =>
    cases e <;> simp_all [alertCount, withoutApiCalls, List.filter_cons, List.count_cons]

theorem init_stripApi (api : Bool) (s : PercentBounds) (screen : Screen) :
    stripApi (CursorLockManager.init api s screen) = CursorLockManager.init false s screen := by
  by_cases hs : isValidBounds (clampBounds s) = true
  · rw [init_valid_eq api s screen hs, init_valid_eq false s screen hs]
    rfl
  · simp [CursorLockManager.init, loadBoundsFromSettings, hs, stripApi, withoutApiCalls]

theorem setBounds_stripApi (n : Nat) (b : PercentBounds) (w : World) :
    CursorLockManager.setBounds n b (stripApi w) =
      (CursorLockManager.setBounds n b w).map stripApi := by
  cases n with
  | zero => simp [CursorLockManager.setBounds]
  | succ n =>
    by_cases hb : isValidBounds (clampBounds b) = true
    · rw [setBounds_valid_eq n b w hb, setBounds_valid_eq n b (stripApi w) hb,
        applyTrace_stripApi]
      simp [stripApi, withoutApiCalls_append, withoutApiCalls_applyTrace]
    · have hb' : isValidBounds (clampBounds b) = false := by simpa using hb
      have hf : fallback (stripApi w) = fallback w := rfl
      have ha : alertTrace (stripApi w) = alertTrace w := rfl
      rw [setBounds_invalid_eq n b w hb', setBounds_invalid_eq n b (stripApi w) hb', hf, ha]
      simp only [Option.map_some', stripApi, withoutApiCalls_append,
        withoutApiCalls_writeTrace, withoutApiCalls_alertTrace]

theorem applyToAPI_stripApi (w : World) :
    CursorLockManager.applyToAPI (stripApi w) = stripApi (CursorLockManager.applyToAPI w) := by
  rw [applyToAPI_eq, applyToAPI_eq]
  by_cases ha : w.mgr.m_api = true <;> simp [stripApi, withoutApiCalls, ha]

theorem activate_stripApi (n : Nat) (w : World) :
    CursorLockManager.activate n (stripApi w) =
      (CursorLockManager.activate n w).map stripApi := by
  have hl : loadBoundsFromSettings (stripApi w) = loadBoundsFromSettings w := rfl
  simp only [CursorLockManager.activate, CursorLockManager.refreshFromSettings, hl,
    setBounds_stripApi, bind, pure]
  cases CursorLockManager.setBounds n (loadBoundsFromSettings w) w with
  | none => rfl
  | some w1 =>
    simp only [Option.map_some', Option.some_bind, Option.some.injEq]
    exact applyToAPI_stripApi { w1 with mgr := { w1.mgr with m_enabled := true } }

theorem deactivate_stripApi (w : World) :
    CursorLockManager.deactivate (stripApi w) = stripApi (CursorLockManager.deactivate w) := by
  rw [deactivate_eq, deactivate_eq]
  by_cases ha : w.mgr.m_api = true <;> simp [stripApi, withoutApiCalls, ha]

theorem update_stripApi (w : World) :
    CursorLockManager.update (stripApi w) = stripApi (CursorLockManager.update w) := by
  by_cases he : w.mgr.m_enabled = true <;> by_cases ha : w.mgr.m_api = true <;>
    simp [CursorLockManager.update, CursorLockManager.applyToAPI, emit, stripApi,
      withoutApiCalls, he, ha]

theorem settingChanged_stripApi (n : Nat) (key : Key) (value : ℚ) (w : World) :
    CursorLockManager.settingChanged n key value (stripApi w) =
      (CursorLockManager.settingChanged n key value w).map stripApi := by
  by_cases hi : w.mgr.m_ignoreSettingChanges = true
  · rw [CursorLockManager.settingChanged, CursorLockManager.settingChanged,
      settingListener_ignoring (CursorLockManager.setBounds n)
        { w with settings := storeSetting key value w.settings } hi,
      settingListener_ignoring (CursorLockManager.setBounds n)
        { stripApi w with settings := storeSetting key value (stripApi w).settings } hi]
    simp [emit, stripApi, withoutApiCalls]
  · have hi' : w.mgr.m_ignoreSettingChanges = false := by simpa using hi
    rw [settingChanged_eq n key value w hi', settingChanged_eq n key value (stripApi w) hi',
      ← setBounds_stripApi]
    simp [stripApi, withoutApiCalls]

theorem step_stripApi (n : Nat) (op : Op) (w : World) :
    step n op (stripApi w) = (step n op w).map stripApi := by
  cases op with
  | setBounds b => exact setBounds_stripApi n b w
  | activate => exact activate_stripApi n w
  | deactivate => simp [step, deactivate_stripApi]
  | update => simp [step, update_stripApi]
  | settingChanged key value => exact settingChanged_stripApi n key value w

theorem run_stripApi (n : Nat) (ops : List Op) (w : World) :
    run n ops (stripApi w) = (run n ops w).map stripApi := by
  induction ops generalizing w with
  | nil => rfl
  | cons op ops ih =>
    simp only [run, step_stripApi]
    cases step n op w with
    | none => rfl
    | some w1 => simpa using ih w1

theorem setBounds_no_capability (fuel : Nat) (b : PercentBounds) (v : World)
    (hv : v.mgr.m_api = false) :
    ∃ v', CursorLockManager.setBounds (fuel + 1) b v = some v' ∧
      apiCalls v'.log = apiCalls v.log ∧ v'.mgr.m_api = false := by
  obtain ⟨v', h⟩ := setBounds_total fuel b v
  refine ⟨v', h, ?_, (setBounds_frame _ b v v' h).2.1.trans hv⟩
  by_cases hb : isValidBounds (clampBounds b) = true
  · rw [setBounds_valid_eq fuel b v hb] at h
    cases h
    simp [apiCalls_append, applyTrace, hv, apiCalls]
  · rw [setBounds_invalid_eq fuel b v (by simpa using hb)] at h
    cases h
    simp [apiCalls_append, apiCalls_writeTrace, apiCalls_alertTrace]

theorem step_no_capability (fuel : Nat) (op : Op) (v : World) (hv : v.mgr.m_api = false) :
    ∃ v', step (fuel + 1) op v = some v' ∧ apiCalls v'.log = apiCalls v.log ∧
      v'.mgr.m_api = false := by
  cases op with
  | setBounds b => exact setBounds_no_capability fuel b v hv
  | activate =>
    obtain ⟨w1, h1, hc, ha⟩ := setBounds_no_capability fuel (loadBoundsFromSettings v) v hv
    refine ⟨_, activate_eq _ v w1 h1, ?_, ha⟩
    simp only [ha, Bool.false_eq_true, if_false, List.append_nil]
    exact hc
  | deactivate =>
    refine ⟨_, rfl, ?_, ?_⟩
    · rw [deactivate_eq]
      simp [hv]
    · rw [deactivate_eq]
      exact hv
  | update => exact ⟨v, by simp [step, CursorLockManager.update, hv], rfl, hv⟩
  | settingChanged key value =>
    by_cases hi : v.mgr.m_ignoreSettingChanges = true
    · exact ⟨_, settingListener_ignoring _ _ hi, by simp [emit, apiCalls_append, apiCalls], hv⟩
    · obtain ⟨v', h, hc, ha⟩ := setBounds_no_capability fuel
        (storeSetting key value v.settings)
        { v with settings := storeSetting key value v.settings
                 log := v.log ++ [Event.listenerRun false] } hv
      refine ⟨v', ?_, ?_, ha⟩
      · simp only [step]
        rw [settingChanged_eq _ key value v (by simpa using hi)]
        exact h
      · rw [hc]
        simp [apiCalls_append, apiCalls]

/-! ## The four writes of `writeSettings`, one by one -/

theorem setSettingValue_bind (onChange : World → Option World) (key : Key) (value : ℚ)
    (w : World) :
    CursorLockManager.setSettingValue onChange key value w =
      (CursorLockManager.setSettingValue some key value w).bind onChange := rfl

theorem restoreLastValid_eq (onChange : World → Option World) (v : World) :
    CursorLockManager.restoreLastValid onChange v =
      CursorLockManager.writeSettings onChange (fallback v)
        { v with mgr := { v.mgr with m_lastValid := fallback v, m_bounds := fallback v } } := by
  by_cases hv : isValidBounds v.mgr.m_lastValid = true <;>
    simp [CursorLockManager.restoreLastValid, fallback, hv]

theorem writeSettings_steps (sb : PercentBounds → World → Option World) (b : PercentBounds)
    (u : World) :
    ∃ s1 t1 s2 t2 s3 t3 s4 t4 : World,
      CursorLockManager.setSettingValue some Key.left b.left
        { u with mgr := { u.mgr with m_ignoreSettingChanges := true } } = some s1 ∧
      CursorLockManager.isIgnoringChanges s1 = true ∧
      CursorLockManager.settingListener sb s1 = some t1 ∧
      t1.mgr = s1.mgr ∧ t1.settings = s1.settings ∧
      CursorLockManager.setSettingValue some Key.top b.top t1 = some s2 ∧
      CursorLockManager.isIgnoringChanges s2 = true ∧
      CursorLockManager.settingListener sb s2 = some t2 ∧
      t2.mgr = s2.mgr ∧ t2.settings = s2.settings ∧
      CursorLockManager.setSettingValue some Key.right b.right t2 = some s3 ∧
      CursorLockManager.isIgnoringChanges s3 = true ∧
      CursorLockManager.settingListener sb s3 = some t3 ∧
      t3.mgr = s3.mgr ∧ t3.settings = s3.settings ∧
      CursorLockManager.setSettingValue some Key.bottom b.bottom t3 = some s4 ∧
      CursorLockManager.isIgnoringChanges s4 = true ∧
      CursorLockManager.settingListener sb s4 = some t4 ∧
      t4.mgr = s4.mgr ∧ t4.settings = s4.settings ∧
      CursorLockManager.writeSettings (CursorLockManager.settingListener sb) b u =
        some { t4 with mgr := { t4.mgr with m_ignoreSettingChanges := false } } := by
  refine ⟨_, _, _, _, _, _, _, _, rfl, rfl, settingListener_ignoring sb _ rfl, rfl, rfl,
    rfl, rfl, settingListener_ignoring sb _ rfl, rfl, rfl,
    rfl, rfl, settingListener_ignoring sb _ rfl, rfl, rfl,
    rfl, rfl, settingListener_ignoring sb _ rfl, rfl, rfl, ?_⟩
  rw [writeSettings_eq]
  simp [emit, storeSetting, writeTrace]

/-! ## Claims -/

/-- C1: every sequence of `setBounds`, `activate`, `deactivate`, `update` and
setting-change notifications run from `init()`, for any capability, storage
contents and screen, terminates in a state whose `getBounds()` is valid:
`right > left` and `bottom > top`. -/
theorem getBounds_valid_after_run (api : Bool) (s : PercentBounds) (screen : Screen)
    (fuel : Nat) (ops : List Op) :
    ∃ w, run (fuel + 1) ops (CursorLockManager.init api s screen) = some w ∧
      Reachable w ∧
      isValidBounds (CursorLockManager.getBounds w) = true ∧
      (CursorLockManager.getBounds w).right > (CursorLockManager.getBounds w).left ∧
      (CursorLockManager.getBounds w).bottom > (CursorLockManager.getBounds w).top := by
  obtain ⟨w, hr, hi⟩ := run_inv fuel ops _ (init_inv api s screen)
  have hv := hi.1
  refine ⟨w, hr, run_reachable _ ops _ w (Reachable.init api s screen) hr, hv, ?_⟩
  exact (isValidBounds_iff _).1 hv

/-- C2: in a reachable state, `setBounds` with a request whose clamped value is
invalid (`right <= left` or `bottom <= top`) returns, leaves current and
last-valid bounds equal to the last-valid bounds held before, leaves the four
storage keys holding those reverted values, and leaves the enabled flag
unchanged. -/
theorem setBounds_invalid_reverts (w : World) (hw : Reachable w) (b : PercentBounds)
    (hb : (clampBounds b).right ≤ (clampBounds b).left ∨
      (clampBounds b).bottom ≤ (clampBounds b).top) (fuel : Nat) :
    ∃ w', CursorLockManager.setBounds (fuel + 1) b w = some w' ∧
      w'.mgr.m_bounds = w.mgr.m_lastValid ∧
      w'.mgr.m_lastValid = w.mgr.m_lastValid ∧
      w'.settings.left = w.mgr.m_lastValid.left ∧
      w'.settings.top = w.mgr.m_lastValid.top ∧
      w'.settings.right = w.mgr.m_lastValid.right ∧
      w'.settings.bottom = w.mgr.m_lastValid.bottom ∧
      w'.mgr.m_enabled = w.mgr.m_enabled := by
  have hi := reachable_inv w hw
  have hinv : isValidBounds (clampBounds b) = false := by
    rw [Bool.eq_false_iff, Ne, isValidBounds_iff]
    rintro ⟨h1, h2⟩
    rcases hb with h | h
    · exact absurd h1 (not_lt.2 h)
    · exact absurd h2 (not_lt.2 h)
  refine ⟨_, setBounds_invalid_eq fuel b w hinv, ?_⟩
  simp [fallback_of_inv w hi, hi.2.1]

/-- Witness for C2: the spec scenario `setBounds (80, 10, 20, 90)` on a
controller holding (25, 25, 75, 75). -/
theorem setBounds_invalid_reverts_witness :
    Reachable demoWorld ∧
    ((clampBounds demoInvalid).right ≤ (clampBounds demoInvalid).left ∨
      (clampBounds demoInvalid).bottom ≤ (clampBounds demoInvalid).top) ∧
    ∃ w', CursorLockManager.setBounds 1 demoInvalid demoWorld = some w' ∧
      w'.mgr.m_bounds = demoWorld.mgr.m_lastValid ∧
      w'.mgr.m_lastValid = demoWorld.mgr.m_lastValid ∧
      w'.settings.left = demoWorld.mgr.m_lastValid.left ∧
      w'.settings.top = demoWorld.mgr.m_lastValid.top ∧
      w'.settings.right = demoWorld.mgr.m_lastValid.right ∧
      w'.settings.bottom = demoWorld.mgr.m_lastValid.bottom ∧
      w'.mgr.m_enabled = demoWorld.mgr.m_enabled :=
  ⟨Reachable.init true _ _, by decide,
    setBounds_invalid_reverts demoWorld (Reachable.init true _ _) demoInvalid (by decide) 0⟩

/-- C3: in any state, `setBounds b` with a valid clamped request returns with
current and last-valid bounds both `clampBounds b` and the alert-shown flag
false; the calls it adds to the log are exactly one
`applyBounds (percentToPixels (clampBounds b))` when the lock was enabled (and a
capability exists) and none when the lock was disabled (or no capability
exists). -/
theorem setBounds_valid_accepts (w : World) (b : PercentBounds)
    (hb : isValidBounds (clampBounds b) = true) (fuel : Nat) :
    ∃ w' calls, CursorLockManager.setBounds (fuel + 1) b w = some w' ∧
      w'.mgr.m_bounds = clampBounds b ∧
      w'.mgr.m_lastValid = clampBounds b ∧
      w'.mgr.m_alertShown = false ∧
      w'.log = w.log ++ calls ∧
      (w.mgr.m_enabled = true → w.mgr.m_api = true →
        calls = [Event.applyBounds (percentToPixels (clampBounds b) w.screen)]) ∧
      (w.mgr.m_enabled = false → calls = []) ∧
      (w.mgr.m_api = false → calls = []) := by
  refine ⟨_, applyTrace w (clampBounds b), setBounds_valid_eq fuel b w hb, rfl, rfl, rfl, rfl,
    ?_, ?_, ?_⟩
  · intro he ha
    simp [applyTrace, he, ha]
  · intro he
    simp [applyTrace, he]
  · intro ha
    simp [applyTrace, ha]

/-- Witness for C3: the spec scenario `setBounds (10, 10, 90, 90)`. -/
theorem setBounds_valid_accepts_witness :
    isValidBounds (clampBounds demoValid) = true ∧
    ∃ w' calls, CursorLockManager.setBounds 1 demoValid demoWorld = some w' ∧
      w'.mgr.m_bounds = clampBounds demoValid ∧
      w'.mgr.m_lastValid = clampBounds demoValid ∧
      w'.mgr.m_alertShown = false ∧
      w'.log = demoWorld.log ++ calls ∧
      (demoWorld.mgr.m_enabled = true → demoWorld.mgr.m_api = true →
        calls = [Event.applyBounds (percentToPixels (clampBounds demoValid) demoWorld.screen)]) ∧
      (demoWorld.mgr.m_enabled = false → calls = []) ∧
      (demoWorld.mgr.m_api = false → calls = []) :=
  ⟨by decide, setBounds_valid_accepts demoWorld demoValid (by decide) 0⟩

/-- C4: from a state whose alert-shown flag is false, a run of one or more
consecutive `setBounds` calls with invalid requests shows exactly one alert, on
the first call; and in a state whose alert-shown flag is true no operation
shows an alert, the flag being cleared only by an operation that hands
`setBounds` a valid request. -/
theorem one_alert_per_episode (w : World) (ha : w.mgr.m_alertShown = false)
    (b : PercentBounds) (bs : List PercentBounds)
    (hinv : ∀ x ∈ b :: bs, isValidBounds (clampBounds x) = false) (fuel : Nat) :
    (∃ w1 wn, CursorLockManager.setBounds (fuel + 1) b w = some w1 ∧
      alertCount w1.log = alertCount w.log + 1 ∧
      run (fuel + 1) (bs.map Op.setBounds) w1 = some wn ∧
      alertCount wn.log = alertCount w.log + 1 ∧
      wn.mgr.m_alertShown = true) ∧
    (∀ (v v' : World) (op : Op) (n : Nat), v.mgr.m_alertShown = true →
      step n op v = some v' →
      alertCount v'.log = alertCount v.log ∧
      (v'.mgr.m_alertShown = false →
        ∃ r, requestOf op v = some r ∧ isValidBounds (clampBounds r) = true)) := by
  refine ⟨?_, fun v v' op n hv h => step_alert_shown v v' op n hv h⟩
  obtain ⟨w1, h1, hc1, hs1⟩ :=
    setBounds_invalid_alert fuel b w (hinv b (List.mem_cons_self b bs))
  obtain ⟨wn, hr, hc, hsn⟩ :=
    run_invalid_alert fuel bs w1 (fun x hx => hinv x (List.mem_cons_of_mem b hx)) hs1
  have hone : alertCount w1.log = alertCount w.log + 1 := by
    rw [hc1]
    simp [ha]
  exact ⟨w1, wn, h1, hone, hr, hc.trans hone, hsn⟩

/-- Witness for C4: two invalid requests in a row on a fresh controller. -/
theorem one_alert_per_episode_witness :
    demoWorld.mgr.m_alertShown = false ∧
    (∀ x ∈ [demoInvalid, demoInvalid], isValidBounds (clampBounds x) = false) ∧
    ∃ w1 wn, CursorLockManager.setBounds 1 demoInvalid demoWorld = some w1 ∧
      alertCount w1.log = alertCount demoWorld.log + 1 ∧
      run 1 ([demoInvalid].map Op.setBounds) w1 = some wn ∧
      alertCount wn.log = alertCount demoWorld.log + 1 ∧
      wn.mgr.m_alertShown = true :=
  ⟨by decide, by decide,
    (one_alert_per_episode demoWorld (by decide) demoInvalid [demoInvalid] (by decide) 0).1⟩

/-- C5: an invalid `setBounds` returns without any nested `setBounds` call
(one unit of fuel is enough).  Its four storage writes are made one after the
other from the state `restoreLastValid` hands to `writeSettings`; in the state
in which each write runs the change listener, `isIgnoringChanges()` is true, and
the listener, whatever `setBounds` it would call, returns that state with
controller members and storage as they were; clearing the flag in the state
after the fourth write gives the state `setBounds` returns.  The log shows each
write followed by a listener run that was answered true.  A listener run that
sees the flag true never calls `setBounds`; the flag is false when `setBounds`
has returned, and false in every reachable state. -/
theorem invalid_setBounds_ignores_own_writes (w : World) (b : PercentBounds)
    (hb : isValidBounds (clampBounds b) = false) :
    (∃ w', CursorLockManager.setBounds 1 b w = some w' ∧
      (∀ fuel, CursorLockManager.setBounds (fuel + 1) b w = some w') ∧
      w'.log = w.log ++ (if w.mgr.m_alertShown then [] else [Event.alert]) ++
        [Event.setSettingValue Key.left w'.mgr.m_bounds.left, Event.listenerRun true,
         Event.setSettingValue Key.top w'.mgr.m_bounds.top, Event.listenerRun true,
         Event.setSettingValue Key.right w'.mgr.m_bounds.right, Event.listenerRun true,
         Event.setSettingValue Key.bottom w'.mgr.m_bounds.bottom, Event.listenerRun true] ∧
      CursorLockManager.isIgnoringChanges w' = false ∧
      (∀ sb : PercentBounds → World → Option World,
        ∃ s1 t1 s2 t2 s3 t3 s4 t4 : World,
          CursorLockManager.setSettingValue some Key.left w'.mgr.m_bounds.left
            { CursorLockManager.notifyInvalid (clampBounds b) w with
              mgr := { (CursorLockManager.notifyInvalid (clampBounds b) w).mgr with
                       m_lastValid := w'.mgr.m_lastValid, m_bounds := w'.mgr.m_bounds,
                       m_ignoreSettingChanges := true } } = some s1 ∧
          CursorLockManager.isIgnoringChanges s1 = true ∧
          CursorLockManager.settingListener sb s1 = some t1 ∧
          t1.mgr = s1.mgr ∧ t1.settings = s1.settings ∧
          CursorLockManager.setSettingValue some Key.top w'.mgr.m_bounds.top t1 = some s2 ∧
          CursorLockManager.isIgnoringChanges s2 = true ∧
          CursorLockManager.settingListener sb s2 = some t2 ∧
          t2.mgr = s2.mgr ∧ t2.settings = s2.settings ∧
          CursorLockManager.setSettingValue some Key.right w'.mgr.m_bounds.right t2 = some s3 ∧
          CursorLockManager.isIgnoringChanges s3 = true ∧
          CursorLockManager.settingListener sb s3 = some t3 ∧
          t3.mgr = s3.mgr ∧ t3.settings = s3.settings ∧
          CursorLockManager.setSettingValue some Key.bottom w'.mgr.m_bounds.bottom t3 =
            some s4 ∧
          CursorLockManager.isIgnoringChanges s4 = true ∧
          CursorLockManager.settingListener sb s4 = some t4 ∧
          t4.mgr = s4.mgr ∧ t4.settings = s4.settings ∧
          w' = { t4 with mgr := { t4.mgr with m_ignoreSettingChanges := false } })) ∧
    (∀ (sb : PercentBounds → World → Option World) (v : World),
      CursorLockManager.isIgnoringChanges v = true →
      ∃ v', CursorLockManager.settingListener sb v = some v' ∧ v'.mgr = v.mgr ∧
        v'.settings = v.settings ∧ v'.screen = v.screen ∧
        v'.log = v.log ++ [Event.listenerRun true]) ∧
    (∀ v, Reachable v → CursorLockManager.isIgnoringChanges v = false) := by
  refine ⟨⟨_, setBounds_invalid_eq 0 b w hb, fun fuel => setBounds_invalid_eq fuel b w hb,
    rfl, rfl, fun sb => ?_⟩, ?_, fun v hv => (reachable_inv v hv).2.2.2⟩
  · obtain ⟨s1, t1, s2, t2, s3, t3, s4, t4, h1, i1, l1, m1, n1, h2, i2, l2, m2, n2,
        h3, i3, l3, m3, n3, h4, i4, l4, m4, n4, hfin⟩ :=
      writeSettings_steps sb (fallback w)
        { CursorLockManager.notifyInvalid (clampBounds b) w with
          mgr := { (CursorLockManager.notifyInvalid (clampBounds b) w).mgr with
                   m_lastValid := fallback w, m_bounds := fallback w } }
    refine ⟨s1, t1, s2, t2, s3, t3, s4, t4, h1, i1, l1, m1, n1, h2, i2, l2, m2, n2,
      h3, i3, l3, m3, n3, h4, i4, l4, m4, n4, ?_⟩
    rw [writeSettings_eq] at hfin
    rw [← Option.some.inj hfin]
    by_cases ha : w.mgr.m_alertShown = true <;>
      simp [CursorLockManager.notifyInvalid, alertTrace, emit, ha]
  · intro sb v hv
    exact ⟨_, settingListener_ignoring sb v hv, rfl, rfl, rfl, rfl⟩

/-- Witness for C5: the spec scenario `setBounds (80, 10, 20, 90)`. -/
theorem invalid_setBounds_ignores_own_writes_witness :
    isValidBounds (clampBounds demoInvalid) = false ∧
    ∃ w', CursorLockManager.setBounds 1 demoInvalid demoWorld = some w' ∧
      (∀ fuel, CursorLockManager.setBounds (fuel + 1) demoInvalid demoWorld = some w') ∧
      w'.log = demoWorld.log ++ (if demoWorld.mgr.m_alertShown then [] else [Event.alert]) ++
        [Event.setSettingValue Key.left w'.mgr.m_bounds.left, Event.listenerRun true,
         Event.setSettingValue Key.top w'.mgr.m_bounds.top, Event.listenerRun true,
         Event.setSettingValue Key.right w'.mgr.m_bounds.right, Event.listenerRun true,
         Event.setSettingValue Key.bottom w'.mgr.m_bounds.bottom, Event.listenerRun true] ∧
      CursorLockManager.isIgnoringChanges w' = false ∧
      (∀ sb : PercentBounds → World → Option World,
        ∃ s1 t1 s2 t2 s3 t3 s4 t4 : World,
          CursorLockManager.setSettingValue some Key.left w'.mgr.m_bounds.left
            { CursorLockManager.notifyInvalid (clampBounds demoInvalid) demoWorld with
              mgr := { (CursorLockManager.notifyInvalid (clampBounds demoInvalid) demoWorld).mgr with
                       m_lastValid := w'.mgr.m_lastValid, m_bounds := w'.mgr.m_bounds,
                       m_ignoreSettingChanges := true } } = some s1 ∧
          CursorLockManager.isIgnoringChanges s1 = true ∧
          CursorLockManager.settingListener sb s1 = some t1 ∧
          t1.mgr = s1.mgr ∧ t1.settings = s1.settings ∧
          CursorLockManager.setSettingValue some Key.top w'.mgr.m_bounds.top t1 = some s2 ∧
          CursorLockManager.isIgnoringChanges s2 = true ∧
          CursorLockManager.settingListener sb s2 = some t2 ∧
          t2.mgr = s2.mgr ∧ t2.settings = s2.settings ∧
          CursorLockManager.setSettingValue some Key.right w'.mgr.m_bounds.right t2 = some s3 ∧
          CursorLockManager.isIgnoringChanges s3 = true ∧
          CursorLockManager.settingListener sb s3 = some t3 ∧
          t3.mgr = s3.mgr ∧ t3.settings = s3.settings ∧
          CursorLockManager.setSettingValue some Key.bottom w'.mgr.m_bounds.bottom t3 =
            some s4 ∧
          CursorLockManager.isIgnoringChanges s4 = true ∧
          CursorLockManager.settingListener sb s4 = some t4 ∧
          t4.mgr = s4.mgr ∧ t4.settings = s4.settings ∧
          w' = { t4 with mgr := { t4.mgr with m_ignoreSettingChanges := false } }) :=
  ⟨by decide, (invalid_setBounds_ignores_own_writes demoWorld demoInvalid (by decide)).1⟩

/-- C6: in any state whose storage contents clamp to valid bounds,
`activate()` returns with `isActive()` true and `getBounds()` equal to the
clamped storage contents; when a capability exists the last capability call is
`applyBounds (percentToPixels (clampBounds s))`, and without one no capability
call is made. -/
theorem activate_reloads_and_applies (w : World)
    (hs : isValidBounds (clampBounds (loadBoundsFromSettings w)) = true) (fuel : Nat) :
    ∃ w', CursorLockManager.activate (fuel + 1) w = some w' ∧
      CursorLockManager.isActive w' = true ∧
      CursorLockManager.getBounds w' = clampBounds (loadBoundsFromSettings w) ∧
      w'.settings = w.settings ∧
      (w.mgr.m_api = true →
        (apiCalls w'.log).getLast? =
          some (Event.applyBounds
            (percentToPixels (clampBounds (loadBoundsFromSettings w)) w.screen))) ∧
      (w.mgr.m_api = false → w'.log = w.log) := by
  refine ⟨_, activate_eq _ w _ (setBounds_valid_eq fuel _ w hs), rfl, rfl, rfl, ?_, ?_⟩
  · intro ha
    simp [apiCalls_append, apiCalls, ha]
  · intro ha
    simp [applyTrace, ha]

/-- Witness for C6: activation of a fresh controller storing (25, 25, 75, 75). -/
theorem activate_reloads_and_applies_witness :
    isValidBounds (clampBounds (loadBoundsFromSettings demoWorld)) = true ∧
    ∃ w', CursorLockManager.activate 1 demoWorld = some w' ∧
      CursorLockManager.isActive w' = true ∧
      CursorLockManager.getBounds w' = clampBounds (loadBoundsFromSettings demoWorld) ∧
      w'.settings = demoWorld.settings ∧
      (demoWorld.mgr.m_api = true →
        (apiCalls w'.log).getLast? =
          some (Event.applyBounds
            (percentToPixels (clampBounds (loadBoundsFromSettings demoWorld))
              demoWorld.screen))) ∧
      (demoWorld.mgr.m_api = false → w'.log = demoWorld.log) :=
  ⟨by decide, activate_reloads_and_applies demoWorld (by decide) 0⟩

/-- Counterexample to C7 as stated: a controller initialised from stored
bounds with `right < left` has the alert-shown flag true after one `activate()`
and false after two, so the two controller states differ. -/
theorem activate_twice_alert_flag_differs :
    Reachable demoBadStore ∧
    (CursorLockManager.activate 1 demoBadStore).map (fun w => w.mgr.m_alertShown) = some true ∧
    ((CursorLockManager.activate 1 demoBadStore).bind (CursorLockManager.activate 1)).map
      (fun w => w.mgr.m_alertShown) = some false ∧
    ((CursorLockManager.activate 1 demoBadStore).bind (CursorLockManager.activate 1)).map
      (fun w => w.mgr) ≠ (CursorLockManager.activate 1 demoBadStore).map (fun w => w.mgr) :=
  ⟨Reachable.init true _ _, by decide, by decide, by decide⟩

/-- C7, amended: in a reachable state, for any storage contents, a second
`activate()` leaves current bounds, last-valid bounds, enabled flag,
ignore-notifications flag and storage as the first left them; the whole
controller state is the same when the clamped storage contents are valid, and
when they are invalid the alert-shown flag is true after the first call and
false after the second. -/
theorem activate_twice (w : World) (hw : Reachable w) (fuel : Nat) :
    ∃ w1 w2, CursorLockManager.activate (fuel + 1) w = some w1 ∧
      CursorLockManager.activate (fuel + 1) w1 = some w2 ∧
      w2.mgr.m_bounds = w1.mgr.m_bounds ∧
      w2.mgr.m_lastValid = w1.mgr.m_lastValid ∧
      w2.mgr.m_enabled = w1.mgr.m_enabled ∧
      w2.mgr.m_ignoreSettingChanges = w1.mgr.m_ignoreSettingChanges ∧
      w2.settings = w1.settings ∧
      (isValidBounds (clampBounds (loadBoundsFromSettings w)) = true → w2.mgr = w1.mgr) ∧
      (isValidBounds (clampBounds (loadBoundsFromSettings w)) = false →
        w1.mgr.m_alertShown = true ∧ w2.mgr.m_alertShown = false) := by
  have hi := reachable_inv w hw
  rw [loadBoundsFromSettings_eq]
  by_cases hs : isValidBounds (clampBounds w.settings) = true
  · refine ⟨_, _, activate_valid_eq fuel w hs, activate_valid_eq fuel _ hs, rfl, rfl, rfl, rfl,
      rfl, fun _ => rfl, fun hf => ?_⟩
    rw [hs] at hf
    cases hf
  · have hs' : isValidBounds (clampBounds w.settings) = false := by simpa using hs
    have hfb : isValidBounds (clampBounds (fallback w)) = true := by
      rw [fallback_of_inv w hi, hi.2.2.1]
      exact hi.1
    have hcl : clampBounds (fallback w) = fallback w := by
      rw [fallback_of_inv w hi, hi.2.2.1]
    refine ⟨_, _, activate_invalid_eq fuel w hs', activate_valid_eq fuel _ hfb, hcl, hcl, rfl,
      rfl, rfl, fun ht => ?_, fun _ => ⟨rfl, rfl⟩⟩
    rw [hs'] at ht
    cases ht

/-- Witness for C7, amended: a freshly initialised controller. -/
theorem activate_twice_witness :
    Reachable demoBadStore ∧
    ∃ w1 w2, CursorLockManager.activate 1 demoBadStore = some w1 ∧
      CursorLockManager.activate 1 w1 = some w2 ∧
      w2.mgr.m_bounds = w1.mgr.m_bounds ∧
      w2.mgr.m_lastValid = w1.mgr.m_lastValid ∧
      w2.mgr.m_enabled = w1.mgr.m_enabled ∧
      w2.mgr.m_ignoreSettingChanges = w1.mgr.m_ignoreSettingChanges ∧
      w2.settings = w1.settings ∧
      (isValidBounds (clampBounds (loadBoundsFromSettings demoBadStore)) = true →
        w2.mgr = w1.mgr) ∧
      (isValidBounds (clampBounds (loadBoundsFromSettings demoBadStore)) = false →
        w1.mgr.m_alertShown = true ∧ w2.mgr.m_alertShown = false) :=
  ⟨Reachable.init true _ _, activate_twice demoBadStore (Reachable.init true _ _) 0⟩

/-- C8: for a freshly initialised controller with a clamp capability and
valid stored settings, `activate(); deactivate(); activate()` logs exactly
`applyBounds` (of the current bounds in pixels), `release`, `applyBounds` (of
the current bounds in pixels); and in any inactive state `setBounds` and the
tick return without any capability call and leave the controller inactive. -/
theorem activate_deactivate_activate (s : PercentBounds) (screen : Screen)
    (hs : isValidBounds (clampBounds s) = true) (fuel : Nat) :
    (∃ w1 w3, CursorLockManager.activate (fuel + 1) (CursorLockManager.init true s screen) =
        some w1 ∧
      w1.log = [Event.applyBounds (percentToPixels (CursorLockManager.getBounds w1) screen)] ∧
      (CursorLockManager.deactivate w1).log = w1.log ++ [Event.release] ∧
      CursorLockManager.activate (fuel + 1) (CursorLockManager.deactivate w1) = some w3 ∧
      w3.log =
        [Event.applyBounds (percentToPixels (CursorLockManager.getBounds w1) screen),
         Event.release,
         Event.applyBounds (percentToPixels (CursorLockManager.getBounds w3) screen)] ∧
      CursorLockManager.getBounds w1 = clampBounds s ∧
      CursorLockManager.getBounds w3 = clampBounds s) ∧
    (∀ (v : World) (op : Op), CursorLockManager.isActive v = false → idleOp op = true →
      ∃ v', step (fuel + 1) op v = some v' ∧ apiCalls v'.log = apiCalls v.log ∧
        CursorLockManager.isActive v' = false) := by
  refine ⟨?_, fun v op hv hop => step_idle fuel op v hv hop⟩
  obtain ⟨w1, h1, hl1, hb1, hs1, hsc1, ha1⟩ :=
    activate_from_idle fuel (CursorLockManager.init true s screen)
      (by rw [init_valid_eq true s screen hs]; exact hs)
      (by rw [init_valid_eq true s screen hs])
      (by rw [init_valid_eq true s screen hs])
  have hlog0 : (CursorLockManager.init true s screen).log = [] := by
    rw [init_valid_eq true s screen hs]
  have hscr0 : (CursorLockManager.init true s screen).screen = screen := by
    rw [init_valid_eq true s screen hs]
  have hset0 : (CursorLockManager.init true s screen).settings = s := by
    rw [init_valid_eq true s screen hs]
  obtain ⟨w3, h3, hl3, hb3, -, -, -⟩ :=
    activate_from_idle fuel (CursorLockManager.deactivate w1)
      (by rw [deactivate_eq]; dsimp only; rw [hs1, hset0]; exact hs)
      (deactivate_enabled w1)
      (by rw [deactivate_eq]; exact ha1)
  have hd : (CursorLockManager.deactivate w1).log = w1.log ++ [Event.release] := by
    rw [deactivate_eq]
    simp [ha1]
  have hdscr : (CursorLockManager.deactivate w1).screen = screen := by
    rw [deactivate_eq]
    exact hsc1.trans hscr0
  have hdset : (CursorLockManager.deactivate w1).settings = s := by
    rw [deactivate_eq]
    exact hs1.trans hset0
  rw [hlog0, hscr0, List.nil_append] at hl1
  rw [hset0] at hb1
  rw [hd, hdscr, hl1] at hl3
  rw [hdset] at hb3
  exact ⟨w1, w3, h1, hl1, hd, h3, by simpa using hl3, hb1, hb3⟩

/-- Witness for C8: the stored bounds (25, 25, 75, 75). -/
theorem activate_deactivate_activate_witness :
    isValidBounds (clampBounds ⟨25, 25, 75, 75⟩) = true ∧
    ∃ w1 w3, CursorLockManager.activate 1 (CursorLockManager.init true ⟨25, 25, 75, 75⟩ demoScreen) =
        some w1 ∧
      w1.log =
        [Event.applyBounds (percentToPixels (CursorLockManager.getBounds w1) demoScreen)] ∧
      (CursorLockManager.deactivate w1).log = w1.log ++ [Event.release] ∧
      CursorLockManager.activate 1 (CursorLockManager.deactivate w1) = some w3 ∧
      w3.log =
        [Event.applyBounds (percentToPixels (CursorLockManager.getBounds w1) demoScreen),
         Event.release,
         Event.applyBounds (percentToPixels (CursorLockManager.getBounds w3) demoScreen)] ∧
      CursorLockManager.getBounds w1 = clampBounds ⟨25, 25, 75, 75⟩ ∧
      CursorLockManager.getBounds w3 = clampBounds ⟨25, 25, 75, 75⟩ :=
  ⟨by decide, (activate_deactivate_activate ⟨25, 25, 75, 75⟩ demoScreen (by decide) 0).1⟩

/-- C9: `isActive()` is false right after `init()`; after any sequence of
operations it is true exactly when the most recent `activate`/`deactivate` was
`activate()`; `activate()` always leaves it true, `deactivate()` false, and
`setBounds`, the tick and setting-change notifications leave it as it was. -/
theorem isActive_follows_lifecycle (api : Bool) (s : PercentBounds) (screen : Screen)
    (fuel : Nat) (ops : List Op) :
    CursorLockManager.isActive (CursorLockManager.init api s screen) = false ∧
    (∃ w, run (fuel + 1) ops (CursorLockManager.init api s screen) = some w ∧
      CursorLockManager.isActive w = lastLifecycle false ops) ∧
    (∀ w, ∃ w', CursorLockManager.activate (fuel + 1) w = some w' ∧
      CursorLockManager.isActive w' = true) ∧
    (∀ w, CursorLockManager.isActive (CursorLockManager.deactivate w) = false) ∧
    (∀ w b, ∃ w', CursorLockManager.setBounds (fuel + 1) b w = some w' ∧
      CursorLockManager.isActive w' = CursorLockManager.isActive w) ∧
    (∀ w, CursorLockManager.isActive (CursorLockManager.update w) =
      CursorLockManager.isActive w) ∧
    (∀ w key value, ∃ w', CursorLockManager.settingChanged (fuel + 1) key value w = some w' ∧
      CursorLockManager.isActive w' = CursorLockManager.isActive w) := by
  have h0 : CursorLockManager.isActive (CursorLockManager.init api s screen) = false := by
    unfold CursorLockManager.isActive CursorLockManager.init
    dsimp only
    split <;> rfl
  refine ⟨h0, ?_, fun w => step_isActive fuel Op.activate w, deactivate_enabled,
    fun w b => step_isActive fuel (Op.setBounds b) w, update_enabled,
    fun w key value => step_isActive fuel (Op.settingChanged key value) w⟩
  obtain ⟨w, hr, he⟩ := run_isActive fuel ops (CursorLockManager.init api s screen)
  refine ⟨w, hr, ?_⟩
  rw [CursorLockManager.isActive, he]
  exact congrArg (fun a => lastLifecycle a ops) h0

/-- C10: in every state (enabled or not, capability present or absent)
`deactivate()` leaves `isActive()` false, leaves current bounds, last-valid
bounds, alert-shown flag and storage unchanged, calls `release()` exactly when
a capability exists, and a second call leaves the same controller state and
storage as the first. -/
theorem deactivate_idempotent (w : World) :
    CursorLockManager.isActive (CursorLockManager.deactivate w) = false ∧
    (CursorLockManager.deactivate w).mgr.m_bounds = w.mgr.m_bounds ∧
    (CursorLockManager.deactivate w).mgr.m_lastValid = w.mgr.m_lastValid ∧
    (CursorLockManager.deactivate w).mgr.m_alertShown = w.mgr.m_alertShown ∧
    (CursorLockManager.deactivate w).settings = w.settings ∧
    (w.mgr.m_api = true → (CursorLockManager.deactivate w).log = w.log ++ [Event.release]) ∧
    (w.mgr.m_api = false → (CursorLockManager.deactivate w).log = w.log) ∧
    (CursorLockManager.deactivate (CursorLockManager.deactivate w)).mgr =
      (CursorLockManager.deactivate w).mgr ∧
    (CursorLockManager.deactivate (CursorLockManager.deactivate w)).settings =
      (CursorLockManager.deactivate w).settings := by
  refine ⟨deactivate_enabled w, ?_, ?_, ?_, ?_, ?_, ?_, ?_, ?_⟩ <;>
    simp only [deactivate_eq] <;> simp +contextual

/-- C11: in every state the tick (`update`) adds to the log exactly
`applyBounds (percentToPixels bounds)` followed by `tick` when the lock is
enabled and a capability exists, and nothing otherwise; controller state,
storage and screen are unchanged; the pixel rectangle is computed at that call
from the current percent bounds and the current screen, whatever the screen
is. -/
theorem update_reapplies_then_ticks (w : World) :
    (CursorLockManager.update w).mgr = w.mgr ∧
    (CursorLockManager.update w).settings = w.settings ∧
    (CursorLockManager.update w).screen = w.screen ∧
    (w.mgr.m_enabled = true → w.mgr.m_api = true →
      (CursorLockManager.update w).log =
        w.log ++ [Event.applyBounds (percentToPixels w.mgr.m_bounds w.screen), Event.tick]) ∧
    (w.mgr.m_enabled = false ∨ w.mgr.m_api = false → (CursorLockManager.update w).log = w.log) ∧
    (∀ screen' : Screen, w.mgr.m_enabled = true → w.mgr.m_api = true →
      (CursorLockManager.update { w with screen := screen' }).log =
        w.log ++ [Event.applyBounds (percentToPixels w.mgr.m_bounds screen'), Event.tick]) := by
  refine ⟨?_, ?_, ?_, ?_, ?_, ?_⟩
  · by_cases he : w.mgr.m_enabled = true <;> by_cases ha : w.mgr.m_api = true <;>
      simp [CursorLockManager.update, CursorLockManager.applyToAPI, emit, he, ha]
  · by_cases he : w.mgr.m_enabled = true <;> by_cases ha : w.mgr.m_api = true <;>
      simp [CursorLockManager.update, CursorLockManager.applyToAPI, emit, he, ha]
  · by_cases he : w.mgr.m_enabled = true <;> by_cases ha : w.mgr.m_api = true <;>
      simp [CursorLockManager.update, CursorLockManager.applyToAPI, emit, he, ha]
  · intro he ha
    simp [CursorLockManager.update, CursorLockManager.applyToAPI, emit, he, ha]
  · rintro (he | ha)
    · simp [CursorLockManager.update, he]
    · simp [CursorLockManager.update, ha]
  · intro screen' he ha
    simp [CursorLockManager.update, CursorLockManager.applyToAPI, emit, he, ha]

/-- C13: for every storage contents `s`, `init()` makes current and last-valid
bounds both `clampBounds s` when that is valid and both the clamped default
region (25, 25, 75, 75) otherwise; loading (25, 25, 75, 75) makes exactly those
bounds current and last-valid. -/
theorem init_loads_or_defaults (api : Bool) (s : PercentBounds) (screen : Screen) :
    (isValidBounds (clampBounds s) = true →
      (CursorLockManager.init api s screen).mgr.m_bounds = clampBounds s ∧
      (CursorLockManager.init api s screen).mgr.m_lastValid = clampBounds s) ∧
    (isValidBounds (clampBounds s) = false →
      (CursorLockManager.init api s screen).mgr.m_bounds =
        clampBounds ⟨25, 25, 75, 75⟩ ∧
      (CursorLockManager.init api s screen).mgr.m_lastValid =
        clampBounds ⟨25, 25, 75, 75⟩) ∧
    (CursorLockManager.init api ⟨25, 25, 75, 75⟩ screen).mgr.m_bounds = ⟨25, 25, 75, 75⟩ ∧
    (CursorLockManager.init api ⟨25, 25, 75, 75⟩ screen).mgr.m_lastValid = ⟨25, 25, 75, 75⟩ := by
  have hd : isValidBounds (clampBounds ⟨25, 25, 75, 75⟩) = true := by decide
  have hc : clampBounds ⟨25, 25, 75, 75⟩ = ⟨25, 25, 75, 75⟩ := by decide
  refine ⟨fun hs => ?_, fun hs => ?_, ?_, ?_⟩
  · rw [init_valid_eq api s screen hs]
    exact ⟨rfl, rfl⟩
  · simp [CursorLockManager.init, loadBoundsFromSettings, hs, defaultBounds]
  · rw [init_valid_eq api _ screen hd, hc]
  · rw [init_valid_eq api _ screen hd, hc]

/-- C14: `isValidBounds b` is true if and only if `b.right > b.left` and
`b.bottom > b.top`, for every `b`, in `[0, 100]` or not; equal edges are
invalid. -/
theorem isValidBounds_spec (b : PercentBounds) :
    (isValidBounds b = true ↔ b.right > b.left ∧ b.bottom > b.top) ∧
    (b.right = b.left → isValidBounds b = false) ∧
    (b.bottom = b.top → isValidBounds b = false) ∧
    isValidBounds ⟨-50, -50, 150, 150⟩ = true ∧
    isValidBounds ⟨150, 0, 120, 50⟩ = false := by
  refine ⟨by simp [isValidBounds], fun h => ?_, fun h => ?_, by decide, by decide⟩
  · simp [isValidBounds, h]
  · simp [isValidBounds, h]

/-- C15: in every state reached from `init()` by a sequence of operations, and
so in every reachable state observed between public operations, the last-valid
bounds equal the current bounds that `getBounds()` returns. -/
theorem lastValid_eq_getBounds (api : Bool) (s : PercentBounds) (screen : Screen)
    (fuel : Nat) (ops : List Op) :
    (∃ w, run (fuel + 1) ops (CursorLockManager.init api s screen) = some w ∧
      w.mgr.m_lastValid = CursorLockManager.getBounds w) ∧
    (∀ v, Reachable v → v.mgr.m_lastValid = CursorLockManager.getBounds v) := by
  refine ⟨?_, fun v hv => (reachable_inv v hv).2.1⟩
  obtain ⟨w, hr, hi⟩ := run_inv fuel ops _ (init_inv api s screen)
  exact ⟨w, hr, hi.2.1⟩

/-- C17: in a reachable state the last-valid bounds are valid, and they still
are when `restoreLastValid` runs (after `notifyInvalid`, whatever the storage
and the log hold by then), so `restoreLastValid` keeps the last-valid bounds
instead of replacing them by the clamped default region: it behaves as its
body without that branch, and an invalid `setBounds` leaves the last-valid
bounds as they were. -/
theorem restoreLastValid_keeps_lastValid (w : World) (hw : Reachable w)
    (settings' : PercentBounds) (log' : List Event) (c : PercentBounds)
    (onChange : World → Option World) :
    isValidBounds w.mgr.m_lastValid = true ∧
    isValidBounds
      (CursorLockManager.notifyInvalid c
        { w with settings := settings', log := log' }).mgr.m_lastValid = true ∧
    CursorLockManager.restoreLastValid onChange
        (CursorLockManager.notifyInvalid c { w with settings := settings', log := log' }) =
      CursorLockManager.writeSettings onChange w.mgr.m_lastValid
        { CursorLockManager.notifyInvalid c { w with settings := settings', log := log' } with
          mgr := { (CursorLockManager.notifyInvalid c
                      { w with settings := settings', log := log' }).mgr with
                   m_bounds := w.mgr.m_lastValid } } ∧
    (∀ (fuel : Nat) (b : PercentBounds), isValidBounds (clampBounds b) = false →
      ∃ w', CursorLockManager.setBounds (fuel + 1) b w = some w' ∧
        w'.mgr.m_lastValid = w.mgr.m_lastValid) := by
  have hi := reachable_inv w hw
  have hv : isValidBounds w.mgr.m_lastValid = true := by
    rw [hi.2.1]
    exact hi.1
  have hn : (CursorLockManager.notifyInvalid c
      { w with settings := settings', log := log' }).mgr.m_lastValid = w.mgr.m_lastValid := by
    unfold CursorLockManager.notifyInvalid
    dsimp only
    split <;> rfl
  refine ⟨hv, by rw [hn]; exact hv, ?_, fun fuel b hb => ?_⟩
  · unfold CursorLockManager.restoreLastValid
    simp only [hn, hv, Bool.not_true, Bool.false_eq_true, if_false]
  · refine ⟨_, setBounds_invalid_eq fuel b w hb, ?_⟩
    simp [fallback, hv]

/-- Witness for C17: an invalid request on a controller holding
(25, 25, 75, 75). -/
theorem restoreLastValid_keeps_lastValid_witness :
    Reachable demoWorld ∧
    isValidBounds demoWorld.mgr.m_lastValid = true ∧
    ∃ w', CursorLockManager.setBounds 1 demoInvalid demoWorld = some w' ∧
      w'.mgr.m_lastValid = demoWorld.mgr.m_lastValid :=
  ⟨Reachable.init true _ _,
    (restoreLastValid_keeps_lastValid demoWorld (Reachable.init true _ _) demoWorld.settings
      demoWorld.log (clampBounds demoInvalid) some).1,
    (restoreLastValid_keeps_lastValid demoWorld (Reachable.init true _ _) demoWorld.settings
      demoWorld.log (clampBounds demoInvalid) some).2.2.2 0 demoInvalid (by decide)⟩

/-- C16: a `setBounds` call whose clamped request is valid returns without
writing to the settings storage and without showing an alert; when the request
is the storage contents themselves (as in `activate` and the change listener)
the storage keeps the unclamped values while `getBounds()` returns the clamped
ones, as for a stored `right` of 150; and an operation that writes to the
storage handed `setBounds` an invalid request. -/
theorem valid_setBounds_writes_nothing (w : World) (b : PercentBounds)
    (hb : isValidBounds (clampBounds b) = true) (fuel : Nat) :
    (∃ w', CursorLockManager.setBounds (fuel + 1) b w = some w' ∧
      w'.settings = w.settings ∧
      settingWrites w'.log = settingWrites w.log ∧
      alertCount w'.log = alertCount w.log ∧
      CursorLockManager.getBounds w' = clampBounds b) ∧
    (∀ v : World, isValidBounds (clampBounds (loadBoundsFromSettings v)) = true →
      ∃ v', CursorLockManager.setBounds (fuel + 1) (loadBoundsFromSettings v) v = some v' ∧
        loadBoundsFromSettings v' = loadBoundsFromSettings v ∧
        CursorLockManager.getBounds v' = clampBounds (loadBoundsFromSettings v)) ∧
    ((CursorLockManager.settingChanged 1 Key.right 150 demoWorld).map
        (fun v => (v.settings.right, (CursorLockManager.getBounds v).right)) =
      some (150, 100)) ∧
    (∀ (v v' : World) (op : Op) (n : Nat), step n op v = some v' →
      settingWrites v'.log ≠ settingWrites v.log →
      ∃ r, requestOf op v = some r ∧ isValidBounds (clampBounds r) = false) := by
  refine ⟨?_, fun v hv => ?_, by decide, fun v v' op n h hw => step_writes_invalid n op v v' h hw⟩
  · obtain ⟨w', h⟩ := setBounds_total fuel b w
    obtain ⟨h1, h2, h3⟩ := setBounds_valid_writes _ b w w' hb h
    refine ⟨w', h, h1, h2, h3, ?_⟩
    rw [setBounds_valid_eq fuel b w hb] at h
    cases h
    rfl
  · exact ⟨_, setBounds_valid_eq fuel _ v hv, rfl, rfl⟩

/-- Witness for C16: a valid request whose `right` field is above 100. -/
theorem valid_setBounds_writes_nothing_witness :
    isValidBounds (clampBounds ⟨25, 25, 150, 75⟩) = true ∧
    ∃ w', CursorLockManager.setBounds 1 ⟨25, 25, 150, 75⟩ demoWorld = some w' ∧
      w'.settings = demoWorld.settings ∧
      settingWrites w'.log = settingWrites demoWorld.log ∧
      alertCount w'.log = alertCount demoWorld.log ∧
      CursorLockManager.getBounds w' = clampBounds ⟨25, 25, 150, 75⟩ :=
  ⟨by decide, (valid_setBounds_writes_nothing demoWorld ⟨25, 25, 150, 75⟩ (by decide) 0).1⟩

/-- C12: without a clamp capability every operation returns and adds no
capability call to the log, in every state; and every sequence of operations,
for every storage contents, ends with the same controller state (current
bounds, last-valid bounds, enabled, alert-shown and ignore flags), the same
storage contents and the same alerts as the same sequence run with a
capability: the log is that of the run with a capability without its capability
calls. -/
theorem no_capability_same_behaviour (s : PercentBounds) (screen : Screen) (fuel : Nat)
    (ops : List Op) :
    (∀ (v : World) (op : Op), v.mgr.m_api = false →
      ∃ v', step (fuel + 1) op v = some v' ∧ apiCalls v'.log = apiCalls v.log) ∧
    (∃ w0 w1, run (fuel + 1) ops (CursorLockManager.init false s screen) = some w0 ∧
      run (fuel + 1) ops (CursorLockManager.init true s screen) = some w1 ∧
      apiCalls w0.log = [] ∧
      w0.mgr.m_bounds = w1.mgr.m_bounds ∧
      w0.mgr.m_lastValid = w1.mgr.m_lastValid ∧
      w0.mgr.m_enabled = w1.mgr.m_enabled ∧
      w0.mgr.m_alertShown = w1.mgr.m_alertShown ∧
      w0.mgr.m_ignoreSettingChanges = w1.mgr.m_ignoreSettingChanges ∧
      w0.settings = w1.settings ∧
      alertCount w0.log = alertCount w1.log ∧
      w0.log = withoutApiCalls w1.log) := by
  refine ⟨fun v op hv => ?_, ?_⟩
  · obtain ⟨v', h, hc, -⟩ := step_no_capability fuel op v hv
    exact ⟨v', h, hc⟩
  · obtain ⟨w1, h1, -⟩ := run_inv fuel ops _ (init_inv true s screen)
    have h0 : run (fuel + 1) ops (CursorLockManager.init false s screen) =
        some (stripApi w1) := by
      rw [← init_stripApi true s screen, run_stripApi, h1]
      rfl
    exact ⟨stripApi w1, w1, h0, h1, apiCalls_withoutApiCalls _, rfl, rfl, rfl, rfl, rfl, rfl,
      alertCount_withoutApiCalls _, rfl⟩

end cursorlock
